import Mathlib

/-!
# Multi-timer scheduler: `src/cpp/linux/scheduler/llist_based.cpp`

A shallow embedding of the linked-list based software timer engine and the
properties of its registry (`init_timer`, `add_timer`, `destroy_timer`) and of
its tick handler (`sig_func`).

Modelling conventions

* The process-wide `static struct timer_list timer_list` is threaded through
  the functions explicitly.
* C `int` values are `Int`.  `node->elapse++` is the only arithmetic of the
  program that is not guarded by a comparison, so it is wrapped to 32 bits
  (`wrap_int`); `timer_list.num++` is guarded by `num < max_num`, hence cannot
  leave the range of `int`.
* The intrusive `LIST_HEAD` list is a `List timer`, head first;
  `LIST_INSERT_HEAD` is `::` and the `for` loop of `sig_func` walks it from the
  head.
* A callback is a code address (`Nat`); `NULL` is `none` where the source
  admits it (the `cb` argument of `add_timer`).  Callbacks are external code:
  every invocation is recorded in a trace of `cb_call`s and has no effect on
  the registry.
* `malloc` of the node either fails (`none`) or returns a block with
  indeterminate contents (`some blk`).  The payload `malloc(len)` is taken to
  succeed.  The `user_data` argument is `none` (NULL) or `some buf`, the bytes
  readable at the pointer.  `memcpy` copies the first `len` bytes of it; when
  the caller's pointer is NULL, `len` is negative or `len` exceeds the buffer,
  the copy reads through NULL or out of bounds and the call does not return:
  `memcpy` and `add_timer` then yield `none`, and so does a sequence of
  operations that contains such a call.
* `signal` and `setitimer` are platform calls; whether each of them succeeds is
  given by a `platform` value.  The SIGALRM disposition and the ITIMER_REAL
  setting of the process form `os_state`.  On Linux `SIG_DFL` is the null
  handler, so `memset` to zero yields `SIG_DFL`.
-/

namespace Scheduler

/-! ## Constants -/

/-- Source: `#define MAX_TIMER_NUM 1000`. -/
def MAX_TIMER_NUM : Int := 1000

/-- Source: `#define TIMER_START 1`. -/
def TIMER_START : Int := 1

/-- Source: `#define TIMER_TICK 1`. -/
def TIMER_TICK : Int := 1

/-- Source: `#define INVALID_TIMER_ID (-1)`. -/
def INVALID_TIMER_ID : Int := -1

/-- Largest value of a 32-bit C `int`. -/
def INT_MAX : Int := 2147483647

/-- Smallest value of a 32-bit C `int`. -/
def INT_MIN : Int := -2147483648

/-- Two's complement wrap-around of an integer to 32 bits. -/
def wrap_int (x : Int) : Int := (x + 2147483648) % 4294967296 - 2147483648

/-! ## Data model -/

/-- Source: `struct timer` (the `LIST_ENTRY` link is the position in the list). -/
structure timer where
  id : Int
  interval : Int
  elapse : Int
  cb : Nat
  user_data : Option (List Nat)
  len : Int
deriving DecidableEq

/-- Values of type `void (*)(int)` that occur as signal dispositions or as
results of `signal`. -/
inductive sighandler where
  | SIG_DFL
  | SIG_IGN
  | SIG_ERR
  | sig_func
  | user (addr : Nat)
deriving DecidableEq

/-- Source: `struct itimerval` (two `struct timeval`s). -/
structure itimerval where
  it_interval_sec : Int
  it_interval_usec : Int
  it_value_sec : Int
  it_value_usec : Int
deriving DecidableEq

/-- An all-zero `itimerval`; as an ITIMER_REAL setting it means "no timer". -/
def itimerval_zero : itimerval := ⟨0, 0, 0, 0⟩

/-- Source: `struct timer_list`. -/
structure timer_list where
  header : List timer
  num : Int
  max_num : Int
  old_sigfunc : sighandler
  new_sigfunc : sighandler
  ovalue : itimerval
  value : itimerval
deriving DecidableEq

/-- The all-zero `struct timer_list`: the initial value of the static variable
(empty list, null handlers, zero counters and timer values). -/
def timer_list_zero : timer_list :=
  ⟨[], 0, 0, sighandler.SIG_DFL, sighandler.SIG_DFL, itimerval_zero, itimerval_zero⟩

/-- Source: `memset(&timer_list, 0, sizeof(struct timer_list))`. -/
def memset_zero (_tl : timer_list) : timer_list := timer_list_zero

/-- The part of the process state the engine touches through the platform:
the disposition of SIGALRM and the ITIMER_REAL setting. -/
structure os_state where
  sigalrm : sighandler
  itimer : itimerval
deriving DecidableEq

/-- The registry together with the platform state. -/
structure state where
  tl : timer_list
  os : os_state
deriving DecidableEq

/-- Outcome of the platform calls made by one `init_timer` or `destroy_timer`. -/
structure platform where
  signal_ok : Bool
  setitimer_ok : Bool
deriving DecidableEq

/-- One invocation `cb(id, user_data, len)` made by the tick handler. -/
structure cb_call where
  cb : Nat
  id : Int
  user_data : Option (List Nat)
  len : Int
deriving DecidableEq

/-! ## Platform calls -/

/-- The call `signal(SIGALRM, h)`: on success installs `h` and returns the
previous disposition; on failure returns `SIG_ERR` and changes nothing.
Installing `SIG_ERR` is rejected by the C library. -/
def signal (ok : Bool) (os : os_state) (h : sighandler) : os_state × sighandler :=
  if ok = true ∧ h ≠ sighandler.SIG_ERR then
    ({ os with sigalrm := h }, os.sigalrm)
  else
    (os, sighandler.SIG_ERR)

/-- The call `setitimer(ITIMER_REAL, &v, &old)`: on success installs `v`, stores
the previous setting in `old` and returns 0; on failure returns -1 and changes
nothing (`old` keeps its value). -/
def setitimer (ok : Bool) (os : os_state) (v old : itimerval) :
    os_state × itimerval × Int :=
  if ok = true then ({ os with itimer := v }, os.itimer, 0) else (os, old, -1)

/-! ## Registry operations -/

/-- Source: `init_timer` (lines 81-108). -/
def init_timer (p : platform) (s : state) (count : Int) : state × Int :=
  if count ≤ 0 ∨ count > MAX_TIMER_NUM then
    (s, -1)
  else
    let tl0 := { memset_zero s.tl with max_num := count }
    let r := signal p.signal_ok s.os sighandler.sig_func
    let tl1 := { tl0 with old_sigfunc := r.2 }
    if r.2 = sighandler.SIG_ERR then
      (⟨tl1, r.1⟩, -1)
    else
      let tl2 := { tl1 with new_sigfunc := sighandler.sig_func }
      let tl3 := { tl2 with value := ⟨TIMER_TICK, 0, TIMER_START, 0⟩ }
      let q := setitimer p.setitimer_ok r.1 tl3.value tl3.ovalue
      (⟨{ tl3 with ovalue := q.2.1 }, q.1⟩, q.2.2)

/-- The `while (!LIST_EMPTY(...))` loop of `destroy_timer`: unlink and free the
first node until the list is empty. -/
def destroy_loop : List timer → List timer
  | [] => []
  | _ :: rest => destroy_loop rest

/-- Source: `destroy_timer` (lines 115-140). -/
def destroy_timer (p : platform) (s : state) : state × Int :=
  let r := signal p.signal_ok s.os s.tl.old_sigfunc
  if r.2 = sighandler.SIG_ERR then
    (⟨s.tl, r.1⟩, -1)
  else
    let q := setitimer p.setitimer_ok r.1 s.tl.ovalue s.tl.value
    let tl1 := { s.tl with value := q.2.1 }
    if q.2.2 < 0 then
      (⟨tl1, q.1⟩, -1)
    else
      let tl2 := { tl1 with header := destroy_loop tl1.header }
      (⟨memset_zero tl2, q.1⟩, 0)

/-- The bytes `memcpy(node->user_data, user_data, len)` leaves in the fresh
buffer.  The copy is defined when `user_data` points to at least `len ≥ 0`
readable bytes; otherwise (`user_data` NULL, `len < 0`, or `len` beyond the
caller's buffer) it reads through NULL or out of bounds and the process
crashes: `none`. -/
def memcpy (user_data : Option (List Nat)) (len : Int) : Option (List Nat) :=
  match user_data with
  | none => none
  | some buf => if 0 ≤ len ∧ len ≤ buf.length then some (buf.take len.toNat) else none

/-- Source: `add_timer` (lines 152-185).  `node` is the result of
`malloc(sizeof(struct timer))`.  The result is the registry and the value
returned, or `none` when the call does not return because the payload copy
crashes. -/
def add_timer (tl : timer_list) (node : Option timer) (interval : Int) (cb : Option Nat)
    (user_data : Option (List Nat)) (len : Int) : Option (timer_list × Int) :=
  match cb with
  | none => some (tl, INVALID_TIMER_ID)
  | some f =>
    if interval ≤ 0 then
      some (tl, INVALID_TIMER_ID)
    else if tl.num < tl.max_num then
      let tl1 := { tl with num := tl.num + 1 }
      match node with
      | none => some (tl1, INVALID_TIMER_ID)
      | some blk =>
        let filled : Option timer :=
          if user_data ≠ none ∨ len ≠ 0 then
            (memcpy user_data len).map
              (fun bytes => { blk with user_data := some bytes, len := len })
          else
            some { blk with user_data := none }
        filled.map (fun n1 =>
          let n2 := { n1 with cb := f, interval := interval, elapse := 0, id := tl1.num }
          ({ tl1 with header := n2 :: tl1.header }, n2.id))
    else
      some (tl, INVALID_TIMER_ID)

/-! ## Tick handler -/

/-- Body of the `for` loop of `sig_func` for one node: the updated node and the
callback invocation it makes, if any. -/
def sig_func_node (node : timer) : timer × List cb_call :=
  let n1 := { node with elapse := wrap_int (node.elapse + 1) }
  if n1.elapse ≥ n1.interval then
    ({ n1 with elapse := 0 }, [⟨n1.cb, n1.id, n1.user_data, n1.len⟩])
  else
    (n1, [])

/-- The `for` loop of `sig_func`, from `lh_first` along `le_next`. -/
def sig_func_loop : List timer → List timer × List cb_call
  | [] => ([], [])
  | node :: rest =>
    let r := sig_func_node node
    let rs := sig_func_loop rest
    (r.1 :: rs.1, r.2 ++ rs.2)

/-- Source: `sig_func` (lines 188-198): the registry after one tick and the
callback invocations made during it, in order. -/
def sig_func (tl : timer_list) : timer_list × List cb_call :=
  let r := sig_func_loop tl.header
  ({ tl with header := r.1 }, r.2)

/-- The effect of `n` consecutive calls of `sig_func`, with the invocations of
all of them in order. -/
def ticks : Nat → timer_list → timer_list × List cb_call
  | 0, tl => (tl, [])
  | n + 1, tl =>
    let r := sig_func tl
    let rs := ticks n r.1
    (rs.1, r.2 ++ rs.2)

/-! ## Operation sequences -/

/-- Arguments of one `add_timer` call, with the outcome of its node `malloc`. -/
structure add_args where
  node : Option timer
  interval : Int
  cb : Option Nat
  user_data : Option (List Nat)
  len : Int
deriving DecidableEq

/-- The operations that act on a live registry: an `add_timer` call or a tick. -/
inductive reg_op where
  | add (a : add_args)
  | tick
deriving DecidableEq

/-- All operations the source implements. -/
inductive op where
  | init (p : platform) (count : Int)
  | reg (r : reg_op)
  | destroy (p : platform)
deriving DecidableEq

/-- The `int` arguments of the operation are in the range of a C `int`. -/
def reg_op.typed : reg_op → Bool
  | reg_op.add a => decide (INT_MIN ≤ a.interval ∧ a.interval ≤ INT_MAX)
  | reg_op.tick => true

/-- The call `add_timer(a.interval, a.cb, a.user_data, a.len)`. -/
def add_call (tl : timer_list) (a : add_args) : Option (timer_list × Int) :=
  add_timer tl a.node a.interval a.cb a.user_data a.len

/-- One registry operation: the new registry and the callback invocations, or
`none` when the operation is an `add_timer` call that crashes. -/
def reg_step (tl : timer_list) : reg_op → Option (timer_list × List cb_call)
  | reg_op.add a => (add_call tl a).map (fun r => (r.1, []))
  | reg_op.tick => some (sig_func tl)

/-- A sequence of registry operations, with all callback invocations in order;
`none` when one of the operations crashes. -/
def reg_run (tl : timer_list) : List reg_op → Option (timer_list × List cb_call)
  | [] => some (tl, [])
  | o :: os =>
    (reg_step tl o).bind (fun r =>
      (reg_run r.1 os).map (fun rs => (rs.1, r.2 ++ rs.2)))

/-- Number of ticks in a sequence of registry operations. -/
def tick_count : List reg_op → Nat
  | [] => 0
  | reg_op.tick :: os => tick_count os + 1
  | reg_op.add _ :: os => tick_count os

/-- One operation on the whole state; `none` when it crashes. -/
def step (s : state) : op → Option state
  | op.init p count => some (init_timer p s count).1
  | op.reg r => (reg_step s.tl r).map (fun x => { s with tl := x.1 })
  | op.destroy p => some (destroy_timer p s).1

/-- A sequence of operations on the whole state: the state it ends in, or
`none` when one of the operations crashes. -/
def run (s : state) : List op → Option state
  | [] => some s
  | o :: os => (step s o).bind (fun s1 => run s1 os)

/-- The state at program start: the static registry is zero-initialised, the
platform state is whatever the process starts with. -/
def boot (os : os_state) : state := ⟨timer_list_zero, os⟩

/-- The invocations in a trace that carry the timer id `id`, in order. -/
def calls_of (id : Int) (calls : List cb_call) : List cb_call :=
  calls.filter (fun c => decide (c.id = id))

/-- Number of invocations in a trace that carry the timer id `id`. -/
def fired (id : Int) (calls : List cb_call) : Nat := (calls_of id calls).length

/-- The invocation `sig_func` makes for an entry: `cb(id, user_data, len)`. -/
def call_of (e : timer) : cb_call := ⟨e.cb, e.id, e.user_data, e.len⟩

/-- The entry of the registry with the given id (first match from the head). -/
def find_timer (tl : timer_list) (id : Int) : Option timer :=
  tl.header.find? (fun e => decide (e.id = id))

/-- The `elapse` counter of the entry with the given id. -/
def elapse_of (tl : timer_list) (id : Int) : Option Int :=
  (find_timer tl id).map timer.elapse

/-- An ITIMER_REAL setting that delivers no further SIGALRM: its `it_value` is
zero. -/
def disarmed (v : itimerval) : Prop := v.it_value_sec = 0 ∧ v.it_value_usec = 0

/-- The registry's tick source is armed: SIGALRM is routed to `sig_func` and the
interval timer is running. -/
def tick_source_armed (os : os_state) : Prop :=
  os.sigalrm = sighandler.sig_func ∧ ¬ disarmed os.itimer

/-- The ids of the entries of the registry, head first. -/
def ids (tl : timer_list) : List Int := tl.header.map timer.id

/-- Ids are pairwise different and none exceeds `num`. -/
def ids_ok (tl : timer_list) : Prop := (ids tl).Nodup ∧ ∀ i ∈ ids tl, i ≤ tl.num

/-- The entry has a positive `int` interval and `0 ≤ elapse < interval`. -/
def entry_ok (e : timer) : Prop :=
  0 < e.interval ∧ e.interval ≤ INT_MAX ∧ 0 ≤ e.elapse ∧ e.elapse < e.interval

/-- The registry holds the entry `e0` under its id, its `elapse` counter being
`t mod interval`, and the ids of the registry are in order. -/
def tracked (tl : timer_list) (e0 : timer) (t : Int) : Prop :=
  ids_ok tl ∧ find_timer tl e0.id = some { e0 with elapse := t % e0.interval }

/-- Code address of the unit test's callback `timer_cb`. -/
def timer_cb : Nat := 1

/-- Contents of a block returned by `malloc` in the examples. -/
def blank : timer := ⟨0, 0, 0, 0, none, 0⟩

/-- The registry of the unit test (`main`) when its wait loop starts:
`init_timer(MAX_TIMER_NUM)` and five timers with intervals 2, 3, 5, 7, 9 and the
payloads "a" .. "e" (`sizeof` 2 each), all with the callback `timer_cb`. -/
def unit_test_registry : timer_list :=
  ((reg_run (init_timer ⟨true, true⟩ (boot ⟨sighandler.SIG_DFL, itimerval_zero⟩)
      MAX_TIMER_NUM).1.tl
    [reg_op.add ⟨some blank, 2, some timer_cb, some [97, 0], 2⟩,
     reg_op.add ⟨some blank, 3, some timer_cb, some [98, 0], 2⟩,
     reg_op.add ⟨some blank, 5, some timer_cb, some [99, 0], 2⟩,
     reg_op.add ⟨some blank, 7, some timer_cb, some [100, 0], 2⟩,
     reg_op.add ⟨some blank, 9, some timer_cb, some [101, 0], 2⟩]).get (by decide)).1

/-- The unit test's counter `alarmCnt` after `n` ticks: `timer_cb` increments it
once per invocation. -/
def alarmCnt (n : Nat) : Nat := (ticks n unit_test_registry).2.length

/-- The registry of the scenario of the specification: `init(5)`, then timers
with intervals 2, 3, 5 and three different callbacks (addresses 11, 12, 13). -/
def scenario_registry : timer_list :=
  ((reg_run (init_timer ⟨true, true⟩ (boot ⟨sighandler.SIG_DFL, itimerval_zero⟩) 5).1.tl
    [reg_op.add ⟨some blank, 2, some 11, some [97, 0], 2⟩,
     reg_op.add ⟨some blank, 3, some 12, some [98, 0], 2⟩,
     reg_op.add ⟨some blank, 5, some 13, some [99, 0], 2⟩]).get (by decide)).1

/-- Modelled from the spec: the body of `del_timer`, which the source declares
(line 67) but does not define.  The specification's `remove(id)` fails if no
entry has that id; on success it removes the entry and decrements the count. -/
def del_timer (tl : timer_list) (id : Int) : timer_list × Int :=
  match find_timer tl id with
  | none => (tl, -1)
  | some _ =>
    ({ tl with header := tl.header.eraseP (fun e => decide (e.id = id)), num := tl.num - 1 }, 0)

/-- A process whose application installed its own SIGALRM handler (at address
4096) before using the timer engine; no interval timer is running. -/
def app_with_handler : state := boot ⟨sighandler.user 4096, itimerval_zero⟩

/-- The process `app_with_handler` after `init_timer(5)` and a first
`destroy_timer`, all platform calls succeeding. -/
def app_after_shutdown : state :=
  (destroy_timer ⟨true, true⟩ (init_timer ⟨true, true⟩ app_with_handler 5).1).1

/-- The process with the default SIGALRM disposition and no interval timer after
one successful `init_timer(5)`: the engine is running. -/
def engine_started : state :=
  (init_timer ⟨true, true⟩ (boot ⟨sighandler.SIG_DFL, itimerval_zero⟩) 5).1

/-- The counter invariant of the registry:
`0 ≤ num ≤ max_num ≤ MAX_TIMER_NUM`. -/
def num_ok (tl : timer_list) : Prop :=
  0 ≤ tl.num ∧ tl.num ≤ tl.max_num ∧ tl.max_num ≤ MAX_TIMER_NUM

/-- The registry after `init_timer(5)` in a process with the default SIGALRM
disposition and no interval timer, all platform calls succeeding. -/
def registry_init5 : timer_list :=
  (init_timer ⟨true, true⟩ (boot ⟨sighandler.SIG_DFL, itimerval_zero⟩) 5).1.tl

/-- A block returned by `malloc` whose bytes at the `len` field hold 7. -/
def stale_block : timer := ⟨0, 0, 0, 0, none, 7⟩

/-- Every node allocation of the operation succeeds. -/
def op.alloc_ok : op → Bool
  | op.reg (reg_op.add a) => a.node.isSome
  | _ => true

/-- A process with the default SIGALRM disposition and no interval timer, whose
registry holds one timer: `init_timer(5)` and `add_timer(2, timer_cb, "a", 2)`
have succeeded. -/
def running_engine : state :=
  (run (boot ⟨sighandler.SIG_DFL, itimerval_zero⟩)
    [op.init ⟨true, true⟩ 5,
      op.reg (reg_op.add ⟨some blank, 2, some timer_cb, some [97, 0], 2⟩)]).get (by decide)

/-- Ids decrease strictly from the head of the list and none exceeds `num`. -/
def ids_desc (tl : timer_list) : Prop :=
  (ids tl).Pairwise (fun x y => x > y) ∧ ∀ i ∈ ids tl, i ≤ tl.num

/-- The test `sig_func` makes on an entry: after the increment,
`elapse >= interval`. -/
def expires (e : timer) : Bool := decide (e.interval ≤ wrap_int (e.elapse + 1))

/-- The registry after `init_timer(5)` and three timers of interval 1 (ids 1, 2,
3 in the order of their addition), which all expire on every tick. -/
def three_due_registry : timer_list :=
  ((reg_run registry_init5
    [reg_op.add ⟨some blank, 1, some 11, some [97, 0], 2⟩,
     reg_op.add ⟨some blank, 1, some 12, some [98, 0], 2⟩,
     reg_op.add ⟨some blank, 1, some 13, some [99, 0], 2⟩]).get (by decide)).1

/-- Body of the `for` loop of `sig_func` for one node, with the value returned by
the callback made explicit: `ret c` is what the invocation `c` returns.  The
call `node->cb(...)` is an expression statement, so the value is dropped; the
trace keeps it next to the invocation. -/
def sig_func_node_ret (ret : cb_call → Int) (node : timer) : timer × List (cb_call × Int) :=
  let n1 := { node with elapse := wrap_int (node.elapse + 1) }
  if n1.elapse ≥ n1.interval then
    let n2 := { n1 with elapse := 0 }
    let c : cb_call := ⟨n2.cb, n2.id, n2.user_data, n2.len⟩
    (n2, [(c, ret c)])
  else
    (n1, [])

/-- The `for` loop of `sig_func` with explicit callback return values. -/
def sig_func_loop_ret (ret : cb_call → Int) : List timer → List timer × List (cb_call × Int)
  | [] => ([], [])
  | node :: rest =>
    let r := sig_func_node_ret ret node
    let rs := sig_func_loop_ret ret rest
    (r.1 :: rs.1, r.2 ++ rs.2)

/-- Source: `sig_func` (lines 188-198) with explicit callback return values. -/
def sig_func_ret (ret : cb_call → Int) (tl : timer_list) : timer_list × List (cb_call × Int) :=
  let r := sig_func_loop_ret ret tl.header
  ({ tl with header := r.1 }, r.2)

/-- What one tick may do to an entry: every field but `elapse` is kept, and
`elapse` becomes `next` or 0. -/
def ticked (next : Int → Int) (old new : timer) : Prop :=
  new.id = old.id ∧ new.interval = old.interval ∧ new.cb = old.cb ∧
  new.user_data = old.user_data ∧ new.len = old.len ∧
  (new.elapse = next old.elapse ∨ new.elapse = 0)

/-- The pair `(user_data, len)` describes a payload `add_timer` can copy: NULL
with length 0, or a buffer of at least `len ≥ 0` bytes. -/
def payload_ok : Option (List Nat) → Int → Bool
  | none, len => decide (len = 0)
  | some buf, len => decide (0 ≤ len ∧ len ≤ buf.length)

/-- The payload arguments of the operation can be copied (see `payload_ok`). -/
def reg_op.payload_ok : reg_op → Bool
  | reg_op.add a => Scheduler.payload_ok a.user_data a.len
  | reg_op.tick => true

/-- The payload arguments of the operation can be copied. -/
def op.payload_ok : op → Bool
  | op.reg r => reg_op.payload_ok r
  | _ => true

/-- Closed form of the node `add_timer` links in when it returns after the node
allocation succeeded: in the copying branch `user_data` is the result of
`memcpy`. -/
def new_node (tl : timer_list) (blk : timer) (interval : Int) (f : Nat)
    (user_data : Option (List Nat)) (len : Int) : timer :=
  { id := tl.num + 1, interval := interval, elapse := 0, cb := f,
    user_data := if user_data ≠ none ∨ len ≠ 0 then memcpy user_data len else none,
    len := if user_data ≠ none ∨ len ≠ 0 then len else blk.len }

/-! ## Basic facts about the operations -/

theorem wrap_int_of_range (x : Int) (h0 : INT_MIN ≤ x) (h1 : x ≤ INT_MAX) : wrap_int x = x := by
  unfold INT_MIN at h0
  unfold INT_MAX at h1
  unfold wrap_int
  omega

theorem destroy_loop_eq_nil (l : List timer) : destroy_loop l = [] := by
  induction l with
  | nil => rfl
  | cons a rest ih => simpa [destroy_loop] using ih

/-- A call that is rejected by one of the guards of `add_timer` returns the
registry it was given. -/
theorem add_timer_rejected (tl : timer_list) (node : Option timer) (interval : Int)
    (cb : Option Nat) (user_data : Option (List Nat)) (len : Int)
    (h : cb = none ∨ interval ≤ 0 ∨ tl.max_num ≤ tl.num) :
    add_timer tl node interval cb user_data len = some (tl, INVALID_TIMER_ID) := by
  unfold add_timer
  cases cb with
  | none => rfl
  | some f =>
    by_cases hi : interval ≤ 0
    · simp [hi]
    · have hn : ¬ tl.num < tl.max_num := by
        rcases h with h | h | h
        · cases h
        · exact absurd h hi
        · omega
      simp [hi, hn]

theorem add_timer_nomem (tl : timer_list) (interval : Int) (f : Nat)
    (user_data : Option (List Nat)) (len : Int)
    (hi : 0 < interval) (hn : tl.num < tl.max_num) :
    add_timer tl none interval (some f) user_data len =
      some ({ tl with num := tl.num + 1 }, INVALID_TIMER_ID) := by
  have hi2 : ¬ interval ≤ 0 := by omega
  unfold add_timer
  simp only [hi2, hn, if_true, if_false]

/-- Past the guards and the node allocation, `add_timer` links the new node in
and returns its id, unless the payload copy crashes. -/
theorem add_timer_linked (tl : timer_list) (blk : timer) (interval : Int) (f : Nat)
    (user_data : Option (List Nat)) (len : Int)
    (hi : 0 < interval) (hn : tl.num < tl.max_num) :
    add_timer tl (some blk) interval (some f) user_data len =
      if (user_data ≠ none ∨ len ≠ 0) ∧ memcpy user_data len = none then none
      else
        some ({ tl with num := tl.num + 1,
                        header := new_node tl blk interval f user_data len :: tl.header },
          tl.num + 1) := by
  have hi2 : ¬ interval ≤ 0 := by omega
  unfold add_timer new_node
  by_cases hu : user_data ≠ none ∨ len ≠ 0
  · cases hm : memcpy user_data len with
    | none => simp [hi2, hn, hu]
    | some bytes => simp [hi2, hn, hu]
  · simp [hi2, hn, hu]

theorem memcpy_of_payload_ok (user_data : Option (List Nat)) (len : Int)
    (hu : user_data ≠ none ∨ len ≠ 0) (hp : payload_ok user_data len = true) :
    memcpy user_data len ≠ none := by
  cases user_data with
  | none =>
    have h0 : len = 0 := of_decide_eq_true hp
    rcases hu with h | h
    · exact absurd rfl h
    · exact absurd h0 h
  | some buf =>
    have hb : 0 ≤ len ∧ len ≤ buf.length := of_decide_eq_true hp
    unfold memcpy
    simp [hb]

theorem add_timer_accepted (tl : timer_list) (blk : timer) (interval : Int) (f : Nat)
    (user_data : Option (List Nat)) (len : Int)
    (hi : 0 < interval) (hn : tl.num < tl.max_num)
    (hp : payload_ok user_data len = true) :
    add_timer tl (some blk) interval (some f) user_data len =
      some ({ tl with num := tl.num + 1,
                      header := new_node tl blk interval f user_data len :: tl.header },
        tl.num + 1) := by
  rw [add_timer_linked tl blk interval f user_data len hi hn]
  have hc : ¬ ((user_data ≠ none ∨ len ≠ 0) ∧ memcpy user_data len = none) :=
    fun h => memcpy_of_payload_ok user_data len h.1 hp h.2
  rw [if_neg hc]

/-- The three ways in which `add_timer` returns: rejected by a guard, node
allocation failed, or the new node linked in. -/
theorem add_timer_some (tl : timer_list) (node : Option timer) (interval : Int)
    (cb : Option Nat) (user_data : Option (List Nat)) (len : Int) (r : timer_list × Int)
    (h : add_timer tl node interval cb user_data len = some r) :
    ((cb = none ∨ interval ≤ 0 ∨ tl.max_num ≤ tl.num) ∧ r = (tl, INVALID_TIMER_ID)) ∨
    (0 < interval ∧ tl.num < tl.max_num ∧ cb ≠ none ∧ node = none ∧
      r = ({ tl with num := tl.num + 1 }, INVALID_TIMER_ID)) ∨
    (0 < interval ∧ tl.num < tl.max_num ∧ ∃ blk f, node = some blk ∧ cb = some f ∧
      r = ({ tl with num := tl.num + 1,
                     header := new_node tl blk interval f user_data len :: tl.header },
        tl.num + 1)) := by
  by_cases hc : cb = none ∨ interval ≤ 0 ∨ tl.max_num ≤ tl.num
  · rw [add_timer_rejected tl node interval cb user_data len hc] at h
    exact Or.inl ⟨hc, (Option.some.inj h).symm⟩
  · have hcb : cb ≠ none := fun h => hc (Or.inl h)
    have hi : 0 < interval := by
      by_contra h
      exact hc (Or.inr (Or.inl (by omega)))
    have hn : tl.num < tl.max_num := by
      by_contra h
      exact hc (Or.inr (Or.inr (by omega)))
    obtain ⟨f, rfl⟩ := Option.ne_none_iff_exists'.mp hcb
    cases node with
    | none =>
      rw [add_timer_nomem tl interval f user_data len hi hn] at h
      exact Or.inr (Or.inl ⟨hi, hn, hcb, rfl, (Option.some.inj h).symm⟩)
    | some blk =>
      rw [add_timer_linked tl blk interval f user_data len hi hn] at h
      split at h
      · cases h
      · exact Or.inr (Or.inr ⟨hi, hn, blk, f, rfl, rfl, (Option.some.inj h).symm⟩)

/-! ## Results of `add_timer` -/

/-- C3, counterexample: on the registry after `init_timer(5)` (`num = 0`,
`max_num = 5`) with the node allocation succeeding, `add_timer(2, timer_cb,
NULL, 2)` meets none of the three failure conditions, yet it returns no timer
id: the payload copy reads two bytes through NULL and the call does not return.
The same happens for a negative `len`. -/
theorem add_timer_payload_crash_counterexample :
    (0 ≤ registry_init5.num ∧ registry_init5.num ≤ registry_init5.max_num) ∧
    ¬ ((some timer_cb : Option Nat) = none ∨ (2 : Int) ≤ 0 ∨
        registry_init5.num = registry_init5.max_num) ∧
    add_timer registry_init5 (some blank) 2 (some timer_cb) none 2 = none ∧
    add_timer registry_init5 (some blank) 2 (some timer_cb) (some [97, 0]) (-1) = none := by
  decide

/-- C3, amended: with the node allocation succeeding and the registry counter
within `0 ≤ num ≤ max_num`: if `cb` is NULL, or `interval ≤ 0`, or
`num = max_num`, `add_timer` returns `INVALID_TIMER_ID` and registers nothing;
in every other case, provided `(user_data, len)` describes a payload that can
be copied (NULL with length 0, or a buffer of at least `len ≥ 0` bytes), it
registers one entry and returns an id in `1..max_num`, which is not
`INVALID_TIMER_ID`; and whenever it returns, the value is `INVALID_TIMER_ID` if
and only if one of the three conditions holds. -/
theorem add_timer_invalid_iff (tl : timer_list) (blk : timer) (interval : Int)
    (cb : Option Nat) (user_data : Option (List Nat)) (len : Int)
    (h0 : 0 ≤ tl.num) (h1 : tl.num ≤ tl.max_num) :
    ((cb = none ∨ interval ≤ 0 ∨ tl.num = tl.max_num) →
      add_timer tl (some blk) interval cb user_data len = some (tl, INVALID_TIMER_ID)) ∧
    (¬ (cb = none ∨ interval ≤ 0 ∨ tl.num = tl.max_num) → payload_ok user_data len = true →
      ∃ r, add_timer tl (some blk) interval cb user_data len = some r ∧
        r.2 ≠ INVALID_TIMER_ID ∧ 1 ≤ r.2 ∧ r.2 ≤ tl.max_num ∧
        r.1.header.length = tl.header.length + 1) ∧
    (∀ r, add_timer tl (some blk) interval cb user_data len = some r →
      (r.2 = INVALID_TIMER_ID ↔ (cb = none ∨ interval ≤ 0 ∨ tl.num = tl.max_num))) := by
  have hguard : (cb = none ∨ interval ≤ 0 ∨ tl.num = tl.max_num) →
      (cb = none ∨ interval ≤ 0 ∨ tl.max_num ≤ tl.num) := by
    intro hc
    rcases hc with h | h | h
    · exact Or.inl h
    · exact Or.inr (Or.inl h)
    · exact Or.inr (Or.inr (by omega))
  have hid : tl.num + 1 ≠ INVALID_TIMER_ID := by
    unfold INVALID_TIMER_ID
    omega
  refine ⟨fun hc => add_timer_rejected tl (some blk) interval cb user_data len (hguard hc),
    ?_, ?_⟩
  · intro hc hp
    have hcb : cb ≠ none := fun h => hc (Or.inl h)
    have hi : 0 < interval := by
      by_contra h
      exact hc (Or.inr (Or.inl (by omega)))
    have hn : tl.num < tl.max_num := by
      have : tl.num ≠ tl.max_num := fun h => hc (Or.inr (Or.inr h))
      omega
    obtain ⟨f, rfl⟩ := Option.ne_none_iff_exists'.mp hcb
    refine ⟨_, add_timer_accepted tl blk interval f user_data len hi hn hp, hid, ?_, ?_, ?_⟩
    · show 1 ≤ tl.num + 1
      omega
    · show tl.num + 1 ≤ tl.max_num
      omega
    · simp
  · intro r hr
    rcases add_timer_some tl (some blk) interval cb user_data len r hr with
      ⟨hc, rfl⟩ | ⟨_, _, _, hnode, _⟩ | ⟨hi, hn, _, f, _, hcb, rfl⟩
    · constructor
      · intro _
        rcases hc with h | h | h
        · exact Or.inl h
        · exact Or.inr (Or.inl h)
        · exact Or.inr (Or.inr (by omega))
      · intro _
        rfl
    · cases hnode
    · constructor
      · intro h
        exact absurd h hid
      · intro hc
        rcases hc with h | h | h
        · rw [hcb] at h
          cases h
        · omega
        · omega

/-- Witness for C3 (amended): a registry of capacity 2 holding no timer accepts
`add_timer(3, cb, NULL, 0)`: the call returns. -/
theorem add_timer_invalid_iff_witness :
    (add_timer { timer_list_zero with max_num := 2 } (some ⟨0, 0, 0, 0, none, 0⟩) 3 (some 7)
        none 0).isSome = true :=
  let ⟨_, h, _⟩ := (add_timer_invalid_iff { timer_list_zero with max_num := 2 }
    ⟨0, 0, 0, 0, none, 0⟩ 3 (some 7) none 0 (by decide) (by decide)).2.1 (by decide) (by decide)
  h ▸ rfl

/-- C4: in every registry state with `num = max_num`, every call of `add_timer`
(any interval, callback, payload and allocation outcome) returns, its value is
`INVALID_TIMER_ID`, and it leaves the entry list, `num` and the rest of the
registry exactly as they were. -/
theorem add_timer_at_capacity (tl : timer_list) (node : Option timer) (interval : Int)
    (cb : Option Nat) (user_data : Option (List Nat)) (len : Int)
    (hfull : tl.num = tl.max_num) :
    (add_timer tl node interval cb user_data len).map Prod.snd = some INVALID_TIMER_ID ∧
    (add_timer tl node interval cb user_data len).map (fun r => r.1.header) =
      some tl.header ∧
    (add_timer tl node interval cb user_data len).map (fun r => r.1.num) = some tl.num ∧
    add_timer tl node interval cb user_data len = some (tl, INVALID_TIMER_ID) := by
  have hr : add_timer tl node interval cb user_data len = some (tl, INVALID_TIMER_ID) :=
    add_timer_rejected tl node interval cb user_data len (Or.inr (Or.inr (by omega)))
  rw [hr]
  exact ⟨rfl, rfl, rfl, rfl⟩

/-- Witness for C4: a full registry of capacity 1 rejects a further, otherwise
valid, `add_timer` and keeps its single entry. -/
theorem add_timer_at_capacity_witness :
    (add_timer ⟨[⟨1, 2, 0, 7, none, 0⟩], 1, 1, sighandler.SIG_DFL, sighandler.sig_func,
        itimerval_zero, itimerval_zero⟩ (some ⟨0, 0, 0, 0, none, 0⟩) 3 (some 7) (some [97, 0])
        2).map Prod.snd = some INVALID_TIMER_ID ∧
    (add_timer ⟨[⟨1, 2, 0, 7, none, 0⟩], 1, 1, sighandler.SIG_DFL, sighandler.sig_func,
        itimerval_zero, itimerval_zero⟩ (some ⟨0, 0, 0, 0, none, 0⟩) 3 (some 7) (some [97, 0])
        2).map (fun r => r.1.header) = some [⟨1, 2, 0, 7, none, 0⟩] :=
  let h := add_timer_at_capacity ⟨[⟨1, 2, 0, 7, none, 0⟩], 1, 1, sighandler.SIG_DFL,
    sighandler.sig_func, itimerval_zero, itimerval_zero⟩ (some ⟨0, 0, 0, 0, none, 0⟩) 3 (some 7)
    (some [97, 0]) 2 rfl
  ⟨h.1, h.2.1⟩

/-- C5: every successful `add_timer(interval, cb, user_data, len)` (one that
returns a value other than `INVALID_TIMER_ID`) increments `num` by exactly 1,
links exactly one new entry in front of the unchanged old list, with the given
interval and callback, `elapse = 0` and `id` equal to the new `num`, returns
that id, and leaves the other fields of the registry alone. -/
theorem add_timer_success (tl : timer_list) (node : Option timer) (interval : Int)
    (cb : Option Nat) (user_data : Option (List Nat)) (len : Int) (r : timer_list × Int)
    (hret : add_timer tl node interval cb user_data len = some r)
    (hok : r.2 ≠ INVALID_TIMER_ID) :
    ∃ e : timer,
      r.1.num = tl.num + 1 ∧
      r.1.header = e :: tl.header ∧
      e.interval = interval ∧ cb = some e.cb ∧ e.elapse = 0 ∧
      e.id = r.1.num ∧
      r.2 = e.id ∧
      r.1.max_num = tl.max_num ∧
      r.1.old_sigfunc = tl.old_sigfunc ∧
      r.1.new_sigfunc = tl.new_sigfunc ∧
      r.1.ovalue = tl.ovalue ∧
      r.1.value = tl.value := by
  rcases add_timer_some tl node interval cb user_data len r hret with
    ⟨_, rfl⟩ | ⟨_, _, _, _, rfl⟩ | ⟨_, _, blk, f, _, hcb, rfl⟩
  · exact absurd rfl hok
  · exact absurd rfl hok
  · exact ⟨new_node tl blk interval f user_data len, rfl, rfl, rfl, hcb, rfl, rfl, rfl, rfl,
      rfl, rfl, rfl, rfl⟩

/-- Witness for C5: the first `add_timer` of the unit test on a fresh registry
of capacity 1000 returns id 1 and sets `num` to 1. -/
theorem add_timer_success_witness :
    add_timer { timer_list_zero with max_num := 1000 } (some ⟨0, 0, 0, 0, none, 0⟩) 2
      (some 7) (some [97, 0]) 2 =
      some (⟨[⟨1, 2, 0, 7, some [97, 0], 2⟩], 1, 1000, sighandler.SIG_DFL, sighandler.SIG_DFL,
        itimerval_zero, itimerval_zero⟩, 1) ∧
    (1 : Int) = 0 + 1 :=
  let ⟨_, h1, _⟩ :=
    add_timer_success { timer_list_zero with max_num := 1000 } (some ⟨0, 0, 0, 0, none, 0⟩) 2
      (some 7) (some [97, 0]) 2
      (⟨[⟨1, 2, 0, 7, some [97, 0], 2⟩], 1, 1000, sighandler.SIG_DFL, sighandler.SIG_DFL,
        itimerval_zero, itimerval_zero⟩, 1) (by decide) (by decide)
  ⟨by decide, h1⟩

/-! ## `init_timer` and `destroy_timer` -/

theorem init_timer_ok (p : platform) (s : state) (count : Int)
    (hlo : 1 ≤ count) (hhi : count ≤ MAX_TIMER_NUM)
    (hsig : p.signal_ok = true) (hset : p.setitimer_ok = true)
    (hos : s.os.sigalrm ≠ sighandler.SIG_ERR) :
    init_timer p s count =
      (⟨⟨[], 0, count, s.os.sigalrm, sighandler.sig_func, s.os.itimer,
          ⟨TIMER_TICK, 0, TIMER_START, 0⟩⟩,
        ⟨sighandler.sig_func, ⟨TIMER_TICK, 0, TIMER_START, 0⟩⟩⟩, 0) := by
  have hc : ¬ (count ≤ 0 ∨ count > MAX_TIMER_NUM) := by
    intro h
    rcases h with h | h <;> omega
  unfold init_timer
  simp [hc, signal, setitimer, hsig, hset, hos, timer_list_zero, memset_zero]

theorem destroy_timer_ok (p : platform) (s : state)
    (hsig : p.signal_ok = true) (hset : p.setitimer_ok = true)
    (hold : s.tl.old_sigfunc ≠ sighandler.SIG_ERR)
    (hos : s.os.sigalrm ≠ sighandler.SIG_ERR) :
    destroy_timer p s = (⟨timer_list_zero, ⟨s.tl.old_sigfunc, s.tl.ovalue⟩⟩, 0) := by
  unfold destroy_timer
  simp [signal, setitimer, hsig, hset, hos, hold, memset_zero]

/-- A `destroy_timer` that returns 0 made both platform calls successfully,
and ends with the zeroed registry and the saved handler and timer value
installed. -/
theorem destroy_timer_zero (p : platform) (s : state) (h : (destroy_timer p s).2 = 0) :
    s.tl.old_sigfunc ≠ sighandler.SIG_ERR ∧
    (destroy_timer p s).1 = ⟨timer_list_zero, ⟨s.tl.old_sigfunc, s.tl.ovalue⟩⟩ := by
  unfold destroy_timer at h ⊢
  unfold signal setitimer at h ⊢
  by_cases h1 : p.signal_ok = true ∧ s.tl.old_sigfunc ≠ sighandler.SIG_ERR
  · by_cases h2 : s.os.sigalrm = sighandler.SIG_ERR
    · simp [h1, h2] at h
    · by_cases h3 : p.setitimer_ok = true
      · simp [h1, h2, h3, memset_zero]
      · simp [h1, h2, h3] at h
  · simp [h1] at h

theorem add_timer_frame (tl : timer_list) (node : Option timer) (interval : Int)
    (cb : Option Nat) (user_data : Option (List Nat)) (len : Int) (r : timer_list × Int)
    (h : add_timer tl node interval cb user_data len = some r) :
    r.1.max_num = tl.max_num ∧ r.1.old_sigfunc = tl.old_sigfunc ∧
    r.1.new_sigfunc = tl.new_sigfunc ∧ r.1.ovalue = tl.ovalue ∧ r.1.value = tl.value := by
  rcases add_timer_some tl node interval cb user_data len r h with
    ⟨_, rfl⟩ | ⟨_, _, _, _, rfl⟩ | ⟨_, _, _, _, _, _, rfl⟩
  · exact ⟨rfl, rfl, rfl, rfl, rfl⟩
  · exact ⟨rfl, rfl, rfl, rfl, rfl⟩
  · exact ⟨rfl, rfl, rfl, rfl, rfl⟩

/-- C6: `init_timer(count)` returns non-zero when `count ≤ 0` or
`count > MAX_TIMER_NUM` (which is 1000); for every `count` in `1..1000`, when
`signal` and `setitimer` succeed, it returns 0 and leaves a registry with
`max_num = count`, `num = 0` and an empty entry list (with `sig_func` installed
and the one-second interval timer armed). -/
theorem init_timer_result (p : platform) (s : state) (count : Int) :
    MAX_TIMER_NUM = 1000 ∧
    ((count ≤ 0 ∨ count > MAX_TIMER_NUM) → (init_timer p s count).2 ≠ 0) ∧
    (1 ≤ count → count ≤ MAX_TIMER_NUM → p.signal_ok = true → p.setitimer_ok = true →
      s.os.sigalrm ≠ sighandler.SIG_ERR →
      (init_timer p s count).2 = 0 ∧
      (init_timer p s count).1.tl.max_num = count ∧
      (init_timer p s count).1.tl.num = 0 ∧
      (init_timer p s count).1.tl.header = [] ∧
      (init_timer p s count).1.os.sigalrm = sighandler.sig_func ∧
      ¬ disarmed (init_timer p s count).1.os.itimer) := by
  refine ⟨rfl, ?_, ?_⟩
  · intro h
    unfold init_timer
    rw [if_pos h]
    simp
  · intro hlo hhi hsig hset hos
    rw [init_timer_ok p s count hlo hhi hsig hset hos]
    refine ⟨rfl, rfl, rfl, rfl, rfl, ?_⟩
    unfold disarmed TIMER_START
    simp

/-- Witness for C6: `init_timer(1000)` of the unit test, in a process with the
default SIGALRM disposition and no interval timer. -/
theorem init_timer_result_witness :
    (init_timer ⟨true, true⟩ (boot ⟨sighandler.SIG_DFL, itimerval_zero⟩) 1000).2 = 0 ∧
    (init_timer ⟨true, true⟩ (boot ⟨sighandler.SIG_DFL, itimerval_zero⟩) 1000).1.tl.max_num
      = 1000 ∧
    (init_timer ⟨true, true⟩ (boot ⟨sighandler.SIG_DFL, itimerval_zero⟩) 0).2 ≠ 0 :=
  let h := (init_timer_result ⟨true, true⟩ (boot ⟨sighandler.SIG_DFL, itimerval_zero⟩) 1000).2.2
    (by decide) (by decide) rfl rfl (by decide)
  ⟨h.1, h.2.1,
    (init_timer_result ⟨true, true⟩ (boot ⟨sighandler.SIG_DFL, itimerval_zero⟩) 0).2.1
      (by decide)⟩

/-- C7, counterexample: in a process that had its own SIGALRM handler before
`init_timer`, the first `destroy_timer` returns 0 and puts that handler back;
a second `destroy_timer` returns 0 as well but replaces the handler by
`SIG_DFL`, so it is not a no-op on the tick-source state. -/
theorem destroy_timer_twice_counterexample :
    (destroy_timer ⟨true, true⟩ (init_timer ⟨true, true⟩ app_with_handler 5).1).2 = 0 ∧
    app_after_shutdown.os.sigalrm = sighandler.user 4096 ∧
    (destroy_timer ⟨true, true⟩ app_after_shutdown).2 = 0 ∧
    (destroy_timer ⟨true, true⟩ app_after_shutdown).1.os.sigalrm = sighandler.SIG_DFL ∧
    (destroy_timer ⟨true, true⟩ app_after_shutdown).1 ≠ app_after_shutdown := by
  decide

/-- C7, amended: after a `destroy_timer` that returned 0, a second
`destroy_timer` whose platform calls succeed also returns 0 and leaves the
registry (entries, `num`, `max_num`: empty and zero) unchanged; it installs
`SIG_DFL` and the zero interval-timer value, so it leaves the whole state
unchanged exactly when the first call had restored `SIG_DFL` and a zero timer
value. -/
theorem destroy_timer_again (p1 p2 : platform) (s : state)
    (h1 : (destroy_timer p1 s).2 = 0)
    (hsig : p2.signal_ok = true) (hset : p2.setitimer_ok = true) :
    (destroy_timer p2 (destroy_timer p1 s).1).2 = 0 ∧
    (destroy_timer p2 (destroy_timer p1 s).1).1.tl = (destroy_timer p1 s).1.tl ∧
    (destroy_timer p2 (destroy_timer p1 s).1).1.tl.header = [] ∧
    (destroy_timer p2 (destroy_timer p1 s).1).1.tl.num = 0 ∧
    (destroy_timer p2 (destroy_timer p1 s).1).1.tl.max_num = 0 ∧
    (destroy_timer p2 (destroy_timer p1 s).1).1.os = ⟨sighandler.SIG_DFL, itimerval_zero⟩ ∧
    ((destroy_timer p2 (destroy_timer p1 s).1).1 = (destroy_timer p1 s).1 ↔
      (destroy_timer p1 s).1.os = ⟨sighandler.SIG_DFL, itimerval_zero⟩) := by
  obtain ⟨hold, hfst⟩ := destroy_timer_zero p1 s h1
  rw [hfst]
  have hz : timer_list_zero.old_sigfunc ≠ sighandler.SIG_ERR := by decide
  have hsnd := destroy_timer_ok p2 ⟨timer_list_zero, ⟨s.tl.old_sigfunc, s.tl.ovalue⟩⟩ hsig hset
    hz hold
  rw [hsnd]
  refine ⟨rfl, rfl, rfl, rfl, rfl, rfl, ?_⟩
  constructor
  · intro h
    exact (congrArg state.os h).symm
  · intro h
    have h2 : (⟨s.tl.old_sigfunc, s.tl.ovalue⟩ : os_state) =
        ⟨sighandler.SIG_DFL, itimerval_zero⟩ := h
    show (⟨timer_list_zero, ⟨timer_list_zero.old_sigfunc, timer_list_zero.ovalue⟩⟩ : state) =
      ⟨timer_list_zero, ⟨s.tl.old_sigfunc, s.tl.ovalue⟩⟩
    rw [h2]
    rfl

/-- Witness for C7 (amended): `init_timer(5)`, `destroy_timer`, `destroy_timer`
in a process with the default SIGALRM disposition and no interval timer; the
second `destroy_timer` returns 0 and changes nothing. -/
theorem destroy_timer_again_witness :
    (destroy_timer ⟨true, true⟩ (destroy_timer ⟨true, true⟩
      (init_timer ⟨true, true⟩ (boot ⟨sighandler.SIG_DFL, itimerval_zero⟩) 5).1).1).2 = 0 ∧
    (destroy_timer ⟨true, true⟩ (destroy_timer ⟨true, true⟩
      (init_timer ⟨true, true⟩ (boot ⟨sighandler.SIG_DFL, itimerval_zero⟩) 5).1).1).1 =
    (destroy_timer ⟨true, true⟩
      (init_timer ⟨true, true⟩ (boot ⟨sighandler.SIG_DFL, itimerval_zero⟩) 5).1).1 :=
  let h := destroy_timer_again ⟨true, true⟩ ⟨true, true⟩
    (init_timer ⟨true, true⟩ (boot ⟨sighandler.SIG_DFL, itimerval_zero⟩) 5).1
    (by decide) rfl rfl
  ⟨h.1, h.2.2.2.2.2.2.mpr (by decide)⟩

/-! ## Operation sequences -/

theorem reg_step_add_some (tl : timer_list) (a : add_args) (r : timer_list × List cb_call)
    (h : reg_step tl (reg_op.add a) = some r) :
    ∃ x, add_call tl a = some x ∧ r = (x.1, []) := by
  have h2 : (add_call tl a).map (fun x => (x.1, ([] : List cb_call))) = some r := h
  obtain ⟨x, hx, hr⟩ := Option.map_eq_some'.mp h2
  exact ⟨x, hx, hr.symm⟩

theorem reg_run_cons_some (tl : timer_list) (o : reg_op) (os : List reg_op)
    (r : timer_list × List cb_call) (h : reg_run tl (o :: os) = some r) :
    ∃ r1 r2, reg_step tl o = some r1 ∧ reg_run r1.1 os = some r2 ∧
      r = (r2.1, r1.2 ++ r2.2) := by
  have h2 : (reg_step tl o).bind (fun x =>
      (reg_run x.1 os).map (fun rs => (rs.1, x.2 ++ rs.2))) = some r := h
  obtain ⟨r1, h1, h3⟩ := Option.bind_eq_some.mp h2
  obtain ⟨r2, h4, h5⟩ := Option.map_eq_some'.mp h3
  exact ⟨r1, r2, h1, h4, h5.symm⟩

theorem reg_run_cons_of_some (tl : timer_list) (o : reg_op) (os : List reg_op)
    (r1 r2 : timer_list × List cb_call)
    (h1 : reg_step tl o = some r1) (h2 : reg_run r1.1 os = some r2) :
    reg_run tl (o :: os) = some (r2.1, r1.2 ++ r2.2) := by
  show (reg_step tl o).bind (fun r => (reg_run r.1 os).map (fun rs => (rs.1, r.2 ++ rs.2))) = _
  rw [h1]
  show (reg_run r1.1 os).map (fun rs => (rs.1, r1.2 ++ rs.2)) = _
  rw [h2]
  rfl

theorem run_cons_some (s : state) (o : op) (os : List op) (s2 : state)
    (h : run s (o :: os) = some s2) :
    ∃ s1, step s o = some s1 ∧ run s1 os = some s2 := by
  have h2 : (step s o).bind (fun s1 => run s1 os) = some s2 := h
  exact Option.bind_eq_some.mp h2

theorem step_reg_some (s : state) (o : reg_op) (s1 : state)
    (h : step s (op.reg o) = some s1) :
    ∃ x, reg_step s.tl o = some x ∧ s1 = { s with tl := x.1 } := by
  have h2 : (reg_step s.tl o).map (fun x => ({ s with tl := x.1 } : state)) = some s1 := h
  obtain ⟨x, hx, hr⟩ := Option.map_eq_some'.mp h2
  exact ⟨x, hx, hr.symm⟩

/-- `add_timer` returns whenever its payload arguments can be copied. -/
theorem add_timer_returns (tl : timer_list) (node : Option timer) (interval : Int)
    (cb : Option Nat) (user_data : Option (List Nat)) (len : Int)
    (hp : payload_ok user_data len = true) :
    ∃ r, add_timer tl node interval cb user_data len = some r := by
  by_cases hc : cb = none ∨ interval ≤ 0 ∨ tl.max_num ≤ tl.num
  · exact ⟨_, add_timer_rejected tl node interval cb user_data len hc⟩
  · have hcb : cb ≠ none := fun h => hc (Or.inl h)
    have hi : 0 < interval := by
      by_contra h
      exact hc (Or.inr (Or.inl (by omega)))
    have hn : tl.num < tl.max_num := by
      by_contra h
      exact hc (Or.inr (Or.inr (by omega)))
    obtain ⟨f, rfl⟩ := Option.ne_none_iff_exists'.mp hcb
    cases node with
    | none => exact ⟨_, add_timer_nomem tl interval f user_data len hi hn⟩
    | some blk => exact ⟨_, add_timer_accepted tl blk interval f user_data len hi hn hp⟩

/-- A sequence of registry operations whose payload arguments can all be copied
runs to its end. -/
theorem reg_run_returns (ops : List reg_op) (tl : timer_list)
    (hp : ∀ o ∈ ops, reg_op.payload_ok o = true) :
    ∃ r, reg_run tl ops = some r := by
  induction ops generalizing tl with
  | nil => exact ⟨(tl, []), rfl⟩
  | cons o os ih =>
    have hpo := hp o (List.mem_cons_self o os)
    have hp2 : ∀ x ∈ os, reg_op.payload_ok x = true :=
      fun x hx => hp x (List.mem_cons_of_mem o hx)
    have h1 : ∃ r1, reg_step tl o = some r1 := by
      cases o with
      | add a =>
        obtain ⟨x, hx⟩ := add_timer_returns tl a.node a.interval a.cb a.user_data a.len hpo
        have hx2 : add_call tl a = some x := hx
        refine ⟨(x.1, []), ?_⟩
        show (add_call tl a).map (fun r => (r.1, ([] : List cb_call))) = _
        rw [hx2]
        rfl
      | tick => exact ⟨sig_func tl, rfl⟩
    obtain ⟨r1, hr1⟩ := h1
    obtain ⟨r2, hr2⟩ := ih r1.1 hp2
    exact ⟨_, reg_run_cons_of_some tl o os r1 r2 hr1 hr2⟩

/-- A sequence of operations whose payload arguments can all be copied runs to
its end: it reaches a state. -/
theorem run_returns (ops : List op) (s : state)
    (hp : ∀ o ∈ ops, op.payload_ok o = true) :
    ∃ s2, run s ops = some s2 := by
  induction ops generalizing s with
  | nil => exact ⟨s, rfl⟩
  | cons o os ih =>
    have hpo := hp o (List.mem_cons_self o os)
    have hp2 : ∀ x ∈ os, op.payload_ok x = true :=
      fun x hx => hp x (List.mem_cons_of_mem o hx)
    have h1 : ∃ s1, step s o = some s1 := by
      cases o with
      | init p count => exact ⟨_, rfl⟩
      | reg r =>
        have hr : reg_op.payload_ok r = true := hpo
        obtain ⟨x, hx⟩ := reg_run_returns [r] s.tl (fun y hy => by
          rw [List.mem_singleton.mp hy]
          exact hr)
        obtain ⟨r1, _, h1, _, _⟩ := reg_run_cons_some s.tl r [] x hx
        refine ⟨{ s with tl := r1.1 }, ?_⟩
        show (reg_step s.tl r).map (fun x => ({ s with tl := x.1 } : state)) = _
        rw [h1]
        rfl
      | destroy p => exact ⟨_, rfl⟩
    obtain ⟨s1, hs1⟩ := h1
    obtain ⟨s2, hs2⟩ := ih s1 hp2
    refine ⟨s2, ?_⟩
    show (step s o).bind (fun x => run x os) = some s2
    rw [hs1]
    exact hs2

theorem run_reg (ops : List reg_op) (s : state) :
    run s (ops.map op.reg) = (reg_run s.tl ops).map (fun r => ⟨r.1, s.os⟩) := by
  induction ops generalizing s with
  | nil => rfl
  | cons o os ih =>
    show (step s (op.reg o)).bind (fun s1 => run s1 (os.map op.reg)) =
      ((reg_step s.tl o).bind (fun r =>
        (reg_run r.1 os).map (fun rs => (rs.1, r.2 ++ rs.2)))).map (fun r => ⟨r.1, s.os⟩)
    show ((reg_step s.tl o).map (fun x => { s with tl := x.1 })).bind
      (fun s1 => run s1 (os.map op.reg)) = _
    cases hx : reg_step s.tl o with
    | none => rfl
    | some x =>
      show run { s with tl := x.1 } (os.map op.reg) =
        ((reg_run x.1 os).map (fun rs => (rs.1, x.2 ++ rs.2))).map (fun r => ⟨r.1, s.os⟩)
      rw [ih]
      cases reg_run x.1 os with
      | none => rfl
      | some y => rfl

/-- A property of the registry that every returning `add_timer` call (with
arguments admitted by `Q`) and every tick preserve holds after every sequence
of registry operations that runs to its end. -/
theorem reg_run_preserves (P : timer_list → Prop) (Q : reg_op → Prop)
    (hadd : ∀ tl a r, Q (reg_op.add a) → P tl → add_call tl a = some r → P r.1)
    (htick : ∀ tl, P tl → P (sig_func tl).1)
    (ops : List reg_op) (tl : timer_list) (r : timer_list × List cb_call)
    (hq : ∀ o ∈ ops, Q o) (h0 : P tl) (h : reg_run tl ops = some r) : P r.1 := by
  induction ops generalizing tl r with
  | nil =>
    have hr : r = (tl, []) := (Option.some.inj h).symm
    rw [hr]
    exact h0
  | cons o os ih =>
    obtain ⟨r1, r2, h1, h2, hr⟩ := reg_run_cons_some tl o os r h
    have hq2 : ∀ x ∈ os, Q x := fun x hx => hq x (List.mem_cons_of_mem o hx)
    have hqo : Q o := hq o (List.mem_cons_self o os)
    rw [hr]
    refine ih r1.1 r2 hq2 ?_ h2
    cases o with
    | add a =>
      obtain ⟨x, hx, hr1⟩ := reg_step_add_some tl a r1 h1
      rw [hr1]
      exact hadd tl a x hqo h0 hx
    | tick =>
      have hr1 : r1 = sig_func tl := (Option.some.inj h1).symm
      rw [hr1]
      exact htick tl h0

/-- The same for sequences of all operations on the whole state. -/
theorem run_preserves (P : timer_list → Prop) (Q : op → Prop)
    (hadd : ∀ tl a r, Q (op.reg (reg_op.add a)) → P tl → add_call tl a = some r → P r.1)
    (htick : ∀ tl, P tl → P (sig_func tl).1)
    (hinit : ∀ p s count, P s.tl → P (init_timer p s count).1.tl)
    (hdestroy : ∀ p s, P s.tl → P (destroy_timer p s).1.tl)
    (ops : List op) (s s2 : state)
    (hq : ∀ o ∈ ops, Q o) (h0 : P s.tl) (h : run s ops = some s2) : P s2.tl := by
  induction ops generalizing s with
  | nil =>
    have hs : s2 = s := (Option.some.inj h).symm
    rw [hs]
    exact h0
  | cons o os ih =>
    obtain ⟨s1, h1, h2⟩ := run_cons_some s o os s2 h
    have hq2 : ∀ x ∈ os, Q x := fun x hx => hq x (List.mem_cons_of_mem o hx)
    have hqo : Q o := hq o (List.mem_cons_self o os)
    refine ih s1 hq2 ?_ h2
    cases o with
    | init p count =>
      have hs1 : s1 = (init_timer p s count).1 := (Option.some.inj h1).symm
      rw [hs1]
      exact hinit p s count h0
    | reg r =>
      obtain ⟨x, hx, hs1⟩ := step_reg_some s r s1 h1
      rw [hs1]
      cases r with
      | add a =>
        obtain ⟨y, hy, hxy⟩ := reg_step_add_some s.tl a x hx
        rw [hxy]
        exact hadd s.tl a y hqo h0 hy
      | tick =>
        have hx1 : x = sig_func s.tl := (Option.some.inj hx).symm
        rw [hx1]
        exact htick s.tl h0
    | destroy p =>
      have hs1 : s1 = (destroy_timer p s).1 := (Option.some.inj h1).symm
      rw [hs1]
      exact hdestroy p s h0

theorem reg_run_frame (ops : List reg_op) (tl : timer_list) (r : timer_list × List cb_call)
    (h : reg_run tl ops = some r) :
    r.1.max_num = tl.max_num ∧ r.1.old_sigfunc = tl.old_sigfunc ∧
    r.1.new_sigfunc = tl.new_sigfunc ∧ r.1.ovalue = tl.ovalue ∧ r.1.value = tl.value := by
  refine reg_run_preserves
    (fun x => x.max_num = tl.max_num ∧ x.old_sigfunc = tl.old_sigfunc ∧
      x.new_sigfunc = tl.new_sigfunc ∧ x.ovalue = tl.ovalue ∧ x.value = tl.value)
    (fun _ => True) ?_ ?_ ops tl r (fun _ _ => trivial) ⟨rfl, rfl, rfl, rfl, rfl⟩ h
  · intro t a x _ hp hx
    obtain ⟨a1, a2, a3, a4, a5⟩ := add_timer_frame t a.node a.interval a.cb a.user_data a.len x hx
    obtain ⟨b1, b2, b3, b4, b5⟩ := hp
    exact ⟨a1.trans b1, a2.trans b2, a3.trans b3, a4.trans b4, a5.trans b5⟩
  · intro t hp
    exact hp

theorem init_timer_zero (p : platform) (s : state) (count : Int)
    (h : (init_timer p s count).2 = 0) :
    (init_timer p s count).1.tl.header = [] ∧ (init_timer p s count).1.tl.num = 0 ∧
    (init_timer p s count).1.tl.max_num = count ∧ 1 ≤ count ∧ count ≤ MAX_TIMER_NUM := by
  unfold init_timer at h ⊢
  by_cases hc : count ≤ 0 ∨ count > MAX_TIMER_NUM
  · simp [hc] at h
  · have hr : 1 ≤ count ∧ count ≤ MAX_TIMER_NUM := by
      constructor
      · by_contra hlt
        exact hc (Or.inl (by omega))
      · by_contra hgt
        exact hc (Or.inr (by omega))
    by_cases he : (signal p.signal_ok s.os sighandler.sig_func).2 = sighandler.SIG_ERR
    · simp [hc, he] at h
    · refine ⟨?_, ?_, ?_, hr⟩ <;> simp [hc, he, timer_list_zero, memset_zero]

/-! ## Ids -/

theorem sig_func_node_eq (e : timer) :
    sig_func_node e =
      if e.interval ≤ wrap_int (e.elapse + 1) then
        ({ e with elapse := 0 }, [⟨e.cb, e.id, e.user_data, e.len⟩])
      else
        ({ e with elapse := wrap_int (e.elapse + 1) }, []) := by
  unfold sig_func_node
  dsimp only

theorem sig_func_node_id (e : timer) : (sig_func_node e).1.id = e.id := by
  rw [sig_func_node_eq]
  split <;> rfl

theorem sig_func_node_interval (e : timer) : (sig_func_node e).1.interval = e.interval := by
  rw [sig_func_node_eq]
  split <;> rfl

theorem sig_func_loop_ids (l : List timer) :
    (sig_func_loop l).1.map timer.id = l.map timer.id := by
  induction l with
  | nil => rfl
  | cons e rest ih =>
    show (sig_func_node e).1.id :: (sig_func_loop rest).1.map timer.id = _
    rw [ih, sig_func_node_id]
    rfl

theorem sig_func_ids (tl : timer_list) : ids (sig_func tl).1 = ids tl :=
  sig_func_loop_ids tl.header

theorem sig_func_ids_ok (tl : timer_list) (h : ids_ok tl) : ids_ok (sig_func tl).1 := by
  unfold ids_ok
  rw [sig_func_ids]
  exact h

theorem add_timer_ids_ok (tl : timer_list) (node : Option timer) (interval : Int)
    (cb : Option Nat) (user_data : Option (List Nat)) (len : Int) (r : timer_list × Int)
    (h : ids_ok tl) (hr : add_timer tl node interval cb user_data len = some r) :
    ids_ok r.1 := by
  obtain ⟨hnd, hle⟩ := h
  rcases add_timer_some tl node interval cb user_data len r hr with
    ⟨_, rfl⟩ | ⟨_, _, _, _, rfl⟩ | ⟨_, _, blk, f, _, _, rfl⟩
  · exact ⟨hnd, hle⟩
  · refine ⟨hnd, fun i hi2 => ?_⟩
    have := hle i hi2
    show i ≤ tl.num + 1
    omega
  · constructor
    · show ((tl.num + 1) :: ids tl).Nodup
      refine List.nodup_cons.mpr ⟨fun hm => ?_, hnd⟩
      have := hle _ hm
      omega
    · intro i hi2
      have hi3 : i ∈ (tl.num + 1) :: ids tl := hi2
      show i ≤ tl.num + 1
      rcases List.mem_cons.mp hi3 with h | h
      · omega
      · have := hle i h
        omega

theorem ids_ok_of_nil (tl : timer_list) (h : tl.header = []) : ids_ok tl := by
  unfold ids_ok ids
  rw [h]
  exact ⟨List.nodup_nil, fun i hi => absurd hi (List.not_mem_nil i)⟩

theorem init_timer_ids_ok (p : platform) (s : state) (count : Int) (h : ids_ok s.tl) :
    ids_ok (init_timer p s count).1.tl := by
  unfold init_timer
  by_cases hc : count ≤ 0 ∨ count > MAX_TIMER_NUM
  · rw [if_pos hc]
    exact h
  · rw [if_neg hc]
    apply ids_ok_of_nil
    by_cases he : (signal p.signal_ok s.os sighandler.sig_func).2 = sighandler.SIG_ERR
    · simp only [he, if_true]
      rfl
    · simp only [he, if_false]
      rfl

theorem destroy_timer_ids_ok (p : platform) (s : state) (h : ids_ok s.tl) :
    ids_ok (destroy_timer p s).1.tl := by
  unfold destroy_timer
  by_cases he : (signal p.signal_ok s.os s.tl.old_sigfunc).2 = sighandler.SIG_ERR
  · simp only [he, if_true]
    exact h
  · simp only [he, if_false]
    split
    · exact h
    · exact ids_ok_of_nil _ rfl

theorem reg_run_ids_ok (ops : List reg_op) (tl : timer_list) (r : timer_list × List cb_call)
    (h : ids_ok tl) (hr : reg_run tl ops = some r) : ids_ok r.1 :=
  reg_run_preserves ids_ok (fun _ => True)
    (fun t a x _ hp hx => add_timer_ids_ok t a.node a.interval a.cb a.user_data a.len x hp hx)
    sig_func_ids_ok ops tl r (fun _ _ => trivial) h hr

theorem run_ids_ok (ops : List op) (s s2 : state) (h : ids_ok s.tl)
    (hr : run s ops = some s2) : ids_ok s2.tl :=
  run_preserves ids_ok (fun _ => True)
    (fun t a x _ hp hx => add_timer_ids_ok t a.node a.interval a.cb a.user_data a.len x hp hx)
    sig_func_ids_ok init_timer_ids_ok destroy_timer_ids_ok ops s s2 (fun _ _ => trivial) h hr

theorem boot_ids_ok (os : os_state) : ids_ok (boot os).tl :=
  ids_ok_of_nil timer_list_zero rfl

/-! ## Elapse counters -/

theorem sig_func_node_ok (e : timer) (h : entry_ok e) :
    sig_func_node e =
      if e.elapse + 1 = e.interval then
        ({ e with elapse := 0 }, [⟨e.cb, e.id, e.user_data, e.len⟩])
      else
        ({ e with elapse := e.elapse + 1 }, []) := by
  obtain ⟨h1, h2, h3, h4⟩ := h
  have hw : wrap_int (e.elapse + 1) = e.elapse + 1 := by
    apply wrap_int_of_range
    · unfold INT_MIN
      omega
    · omega
  rw [sig_func_node_eq, hw]
  by_cases hc : e.elapse + 1 = e.interval
  · have : e.interval ≤ e.elapse + 1 := by omega
    rw [if_pos hc, if_pos this]
  · have : ¬ e.interval ≤ e.elapse + 1 := by omega
    rw [if_neg hc, if_neg this]

theorem sig_func_node_entry_ok (e : timer) (h : entry_ok e) : entry_ok (sig_func_node e).1 := by
  rw [sig_func_node_ok e h]
  obtain ⟨h1, h2, h3, h4⟩ := h
  by_cases hc : e.elapse + 1 = e.interval
  · rw [if_pos hc]
    exact ⟨h1, h2, le_refl 0, h1⟩
  · rw [if_neg hc]
    refine ⟨h1, h2, ?_, ?_⟩
    · show 0 ≤ e.elapse + 1
      omega
    · show e.elapse + 1 < e.interval
      omega

theorem sig_func_loop_entry_ok (l : List timer) (h : ∀ e ∈ l, entry_ok e) :
    ∀ e ∈ (sig_func_loop l).1, entry_ok e := by
  induction l with
  | nil =>
    intro e he
    exact absurd he (List.not_mem_nil e)
  | cons a rest ih =>
    intro e he
    have he2 : e ∈ (sig_func_node a).1 :: (sig_func_loop rest).1 := he
    rcases List.mem_cons.mp he2 with hh | ht
    · rw [hh]
      exact sig_func_node_entry_ok a (h a (List.mem_cons_self a rest))
    · exact ih (fun x hx => h x (List.mem_cons_of_mem a hx)) e ht

theorem add_timer_entry_ok (tl : timer_list) (node : Option timer) (interval : Int)
    (cb : Option Nat) (user_data : Option (List Nat)) (len : Int) (r : timer_list × Int)
    (hty : interval ≤ INT_MAX) (h : ∀ e ∈ tl.header, entry_ok e)
    (hr : add_timer tl node interval cb user_data len = some r) :
    ∀ e ∈ r.1.header, entry_ok e := by
  rcases add_timer_some tl node interval cb user_data len r hr with
    ⟨_, rfl⟩ | ⟨_, _, _, _, rfl⟩ | ⟨hi, _, blk, f, _, _, rfl⟩
  · exact h
  · exact h
  · intro e he
    have he2 : e ∈ new_node tl blk interval f user_data len :: tl.header := he
    rcases List.mem_cons.mp he2 with hh | ht
    · rw [hh]
      exact ⟨hi, hty, le_refl 0, hi⟩
    · exact h e ht

theorem reg_run_entry_ok (ops : List reg_op) (tl : timer_list) (r : timer_list × List cb_call)
    (hty : ∀ o ∈ ops, reg_op.typed o = true) (h : ∀ e ∈ tl.header, entry_ok e)
    (hr : reg_run tl ops = some r) :
    ∀ e ∈ r.1.header, entry_ok e := by
  refine reg_run_preserves (fun t => ∀ e ∈ t.header, entry_ok e)
    (fun o => reg_op.typed o = true) ?_ ?_ ops tl r hty h hr
  · intro t a x hq hp hx
    have hb : INT_MIN ≤ a.interval ∧ a.interval ≤ INT_MAX := of_decide_eq_true hq
    exact add_timer_entry_ok t a.node a.interval a.cb a.user_data a.len x hb.2 hp hx
  · intro t hp
    exact sig_func_loop_entry_ok t.header hp

/-! ## Following one timer through ticks -/

theorem emod_succ (t k : Int) (hk : 0 < k) :
    (t + 1) % k = if t % k + 1 = k then 0 else t % k + 1 := by
  have h0 := Int.emod_nonneg t (ne_of_gt hk)
  have h1 := Int.emod_lt_of_pos t hk
  rw [← Int.emod_add_emod]
  by_cases hc : t % k + 1 = k
  · rw [if_pos hc, hc, Int.emod_self]
  · rw [if_neg hc]
    exact Int.emod_eq_of_lt (by omega) (by omega)

theorem ediv_succ (t k : Int) (hk : 0 < k) :
    (t + 1) / k = t / k + if t % k + 1 = k then 1 else 0 := by
  have h0 := Int.emod_nonneg t (ne_of_gt hk)
  have h1 := Int.emod_lt_of_pos t hk
  have e1 := Int.emod_add_ediv t k
  by_cases hc : t % k + 1 = k
  · rw [if_pos hc]
    have h2 : t + 1 = 0 + (t / k + 1) * k := by linarith
    rw [h2, Int.add_mul_ediv_right _ _ (ne_of_gt hk)]
    simp
  · rw [if_neg hc]
    have h2 : t + 1 = (t % k + 1) + (t / k) * k := by linarith
    rw [h2, Int.add_mul_ediv_right _ _ (ne_of_gt hk),
      Int.ediv_eq_zero_of_lt (by omega) (by omega)]
    simp

theorem calls_of_append (i : Int) (a b : List cb_call) :
    calls_of i (a ++ b) = calls_of i a ++ calls_of i b := by
  unfold calls_of
  exact List.filter_append a b

theorem fired_append (i : Int) (a b : List cb_call) :
    fired i (a ++ b) = fired i a + fired i b := by
  unfold fired
  rw [calls_of_append, List.length_append]

theorem sig_func_node_calls (e : timer) (i : Int) (h : e.id ≠ i) :
    calls_of i (sig_func_node e).2 = [] := by
  rw [sig_func_node_eq]
  split
  · simp [calls_of, h]
  · rfl

theorem sig_func_loop_calls_none (l : List timer) (i : Int) (h : i ∉ l.map timer.id) :
    calls_of i (sig_func_loop l).2 = [] := by
  induction l with
  | nil => rfl
  | cons a rest ih =>
    have ha : a.id ≠ i := by
      intro hh
      apply h
      rw [← hh]
      exact List.mem_cons_self _ _
    have hr : i ∉ rest.map timer.id := by
      intro hh
      apply h
      exact List.mem_cons_of_mem _ hh
    show calls_of i ((sig_func_node a).2 ++ (sig_func_loop rest).2) = []
    rw [calls_of_append, sig_func_node_calls a i ha, ih hr]
    rfl

theorem sig_func_loop_track (l : List timer) (i : Int) (e : timer)
    (hnd : (l.map timer.id).Nodup)
    (hf : l.find? (fun x => decide (x.id = i)) = some e) (hok : entry_ok e) :
    calls_of i (sig_func_loop l).2 = (if e.elapse + 1 = e.interval then [call_of e] else []) ∧
    (sig_func_loop l).1.find? (fun x => decide (x.id = i)) =
      some { e with elapse := if e.elapse + 1 = e.interval then 0 else e.elapse + 1 } := by
  induction l with
  | nil => simp at hf
  | cons a rest ih =>
    have hnd2 : a.id ∉ rest.map timer.id ∧ (rest.map timer.id).Nodup := List.nodup_cons.mp hnd
    show calls_of i ((sig_func_node a).2 ++ (sig_func_loop rest).2) = _ ∧
      ((sig_func_node a).1 :: (sig_func_loop rest).1).find? _ = _
    by_cases ha : a.id = i
    · have hae : a = e := by
        rw [List.find?_cons_of_pos _ (by simpa using ha)] at hf
        exact Option.some.inj hf
      subst hae
      have hnone : i ∉ rest.map timer.id := ha ▸ hnd2.1
      rw [calls_of_append, sig_func_loop_calls_none rest i hnone, List.append_nil]
      rw [List.find?_cons_of_pos _ (by simpa [sig_func_node_id] using ha)]
      rw [sig_func_node_ok a hok]
      by_cases hc : a.elapse + 1 = a.interval
      · simp [hc, calls_of, call_of, ha]
      · simp [hc, calls_of]
    · rw [List.find?_cons_of_neg _ (by simpa using ha)] at hf
      obtain ⟨h1, h2⟩ := ih hnd2.2 hf
      rw [calls_of_append, sig_func_node_calls a i ha, List.nil_append, h1]
      rw [List.find?_cons_of_neg _ (by simpa [sig_func_node_id] using ha), h2]
      exact ⟨rfl, rfl⟩

theorem sig_func_tracked (tl : timer_list) (e0 : timer) (t : Int)
    (hk : 0 < e0.interval) (hk2 : e0.interval ≤ INT_MAX) (h : tracked tl e0 t) :
    tracked (sig_func tl).1 e0 (t + 1) ∧
    calls_of e0.id (sig_func tl).2 =
      (if (t + 1) % e0.interval = 0 then [call_of e0] else []) := by
  obtain ⟨hids, hfind⟩ := h
  have h0 := Int.emod_nonneg t (ne_of_gt hk)
  have h1 := Int.emod_lt_of_pos t hk
  have hok : entry_ok { e0 with elapse := t % e0.interval } := ⟨hk, hk2, h0, h1⟩
  obtain ⟨hc, hf⟩ := sig_func_loop_track tl.header e0.id _ hids.1 hfind hok
  have hs := emod_succ t e0.interval hk
  refine ⟨⟨sig_func_ids_ok tl hids, ?_⟩, ?_⟩
  · show (sig_func_loop tl.header).1.find? _ = _
    rw [hf, hs]
  · show calls_of e0.id (sig_func_loop tl.header).2 = _
    rw [hc, hs]
    by_cases hq : t % e0.interval + 1 = e0.interval
    · simp [hq, call_of]
    · have : ¬ t % e0.interval + 1 = 0 := by omega
      simp [hq, this]

theorem add_timer_tracked (tl : timer_list) (a : add_args) (e0 : timer) (t : Int)
    (r : timer_list × Int) (h : tracked tl e0 t) (hr : add_call tl a = some r) :
    tracked r.1 e0 t := by
  obtain ⟨hids, hfind⟩ := h
  refine ⟨add_timer_ids_ok tl a.node a.interval a.cb a.user_data a.len r hids hr, ?_⟩
  rcases add_timer_some tl a.node a.interval a.cb a.user_data a.len r hr with
    ⟨_, rfl⟩ | ⟨_, _, _, _, rfl⟩ | ⟨_, _, blk, f, _, _, rfl⟩
  · exact hfind
  · exact hfind
  · have hmem : e0.id ∈ ids tl := by
      have hm := List.mem_of_find?_eq_some hfind
      exact List.mem_map.mpr ⟨_, hm, rfl⟩
    have hle := hids.2 _ hmem
    have hne : ¬ (new_node tl blk a.interval f a.user_data a.len).id = e0.id := by
      show ¬ tl.num + 1 = e0.id
      omega
    show (new_node tl blk a.interval f a.user_data a.len :: tl.header).find? _ = _
    rw [List.find?_cons_of_neg _ (by simpa using hne)]
    exact hfind

theorem reg_run_tracked (ops : List reg_op) (tl : timer_list) (e0 : timer) (t : Int)
    (r : timer_list × List cb_call)
    (hk : 0 < e0.interval) (hk2 : e0.interval ≤ INT_MAX) (h : tracked tl e0 t)
    (hr : reg_run tl ops = some r) :
    tracked r.1 e0 (t + tick_count ops) ∧
    (fired e0.id r.2 : Int) + t / e0.interval =
      (t + tick_count ops) / e0.interval ∧
    ∀ c ∈ calls_of e0.id r.2, c = call_of e0 := by
  induction ops generalizing tl t r with
  | nil =>
    have hr2 : r = (tl, []) := (Option.some.inj hr).symm
    rw [hr2]
    refine ⟨?_, ?_, ?_⟩
    · simpa [tick_count] using h
    · simp [tick_count, fired, calls_of]
    · intro c hc
      simp [calls_of] at hc
  | cons o os ih =>
    obtain ⟨r1, r2, h1, h2, hr3⟩ := reg_run_cons_some tl o os r hr
    rw [hr3]
    cases o with
    | add a =>
      obtain ⟨x, hx, hr1⟩ := reg_step_add_some tl a r1 h1
      have h3 := add_timer_tracked tl a e0 t x h hx
      rw [hr1] at h2 ⊢
      obtain ⟨i1, i2, i3⟩ := ih x.1 t r2 h3 h2
      exact ⟨i1, i2, i3⟩
    | tick =>
      have hr1 : r1 = sig_func tl := (Option.some.inj h1).symm
      rw [hr1] at h2 ⊢
      obtain ⟨h3, h4⟩ := sig_func_tracked tl e0 t hk hk2 h
      obtain ⟨i1, i2, i3⟩ := ih (sig_func tl).1 (t + 1) r2 h3 h2
      have hcnt : ((tick_count (reg_op.tick :: os) : Nat) : Int) = 1 + tick_count os := by
        simp [tick_count]
        ring
      have hsum : t + ((tick_count (reg_op.tick :: os) : Nat) : Int) = t + 1 + tick_count os := by
        rw [hcnt]
        ring
      refine ⟨?_, ?_, ?_⟩
      · rw [hsum]
        exact i1
      · show (fired e0.id ((sig_func tl).2 ++ r2.2) : Int) + _ = _
        rw [fired_append, hsum, ← i2, ediv_succ t e0.interval hk]
        have hf : fired e0.id (sig_func tl).2 =
            if (t + 1) % e0.interval = 0 then 1 else 0 := by
          unfold fired
          rw [h4]
          split <;> rfl
        rw [hf, emod_succ t e0.interval hk]
        have h0 := Int.emod_nonneg t (ne_of_gt hk)
        by_cases hq : t % e0.interval + 1 = e0.interval
        · simp [hq]
          ring
        · have : ¬ t % e0.interval + 1 = 0 := by omega
          simp [hq, this]
      · intro c hc
        have hc2 : c ∈ calls_of e0.id ((sig_func tl).2 ++ r2.2) := hc
        rw [calls_of_append, h4] at hc2
        rcases List.mem_append.mp hc2 with hh | hh
        · split at hh
          · exact List.mem_singleton.mp hh
          · exact absurd hh (List.not_mem_nil c)
        · exact i3 c hh

theorem add_call_entry (tl : timer_list) (a : add_args) (r : timer_list × Int)
    (hinv : ids_ok tl) (hr : add_call tl a = some r) (hok : r.2 ≠ INVALID_TIMER_ID) :
    ∃ blk f, a.node = some blk ∧ a.cb = some f ∧ 0 < a.interval ∧
      (new_node tl blk a.interval f a.user_data a.len).id = r.2 ∧
      tracked r.1 (new_node tl blk a.interval f a.user_data a.len) 0 := by
  have hinv2 := add_timer_ids_ok tl a.node a.interval a.cb a.user_data a.len r hinv hr
  rcases add_timer_some tl a.node a.interval a.cb a.user_data a.len r hr with
    ⟨_, rfl⟩ | ⟨_, _, _, _, rfl⟩ | ⟨hi, _, blk, f, hnode, hcb, rfl⟩
  · exact absurd rfl hok
  · exact absurd rfl hok
  · refine ⟨blk, f, hnode, hcb, hi, rfl, hinv2, ?_⟩
    show (new_node tl blk a.interval f a.user_data a.len :: tl.header).find? _ = _
    rw [List.find?_cons_of_pos _ (by simp)]
    simp [new_node]

theorem add_call_starts_tracking (tl : timer_list) (a : add_args) (r : timer_list × Int)
    (hinv : ids_ok tl) (hr : add_call tl a = some r) (hok : r.2 ≠ INVALID_TIMER_ID) :
    ∃ e0 : timer, e0.id = r.2 ∧ e0.interval = a.interval ∧ a.cb = some e0.cb ∧
      0 < a.interval ∧ tracked r.1 e0 0 := by
  obtain ⟨blk, f, _, hcb, hi, hid, htr⟩ := add_call_entry tl a r hinv hr hok
  exact ⟨new_node tl blk a.interval f a.user_data a.len, hid, rfl, hcb, hi, htr⟩

theorem tick_count_replicate (n : Nat) : tick_count (List.replicate n reg_op.tick) = n := by
  induction n with
  | zero => rfl
  | succ m ih =>
    show tick_count (List.replicate m reg_op.tick) + 1 = m + 1
    rw [ih]

theorem tick_count_adds (l : List add_args) : tick_count (l.map reg_op.add) = 0 := by
  induction l with
  | nil => rfl
  | cons a rest ih => exact ih

theorem ticks_eq_reg_run (n : Nat) (tl : timer_list) :
    reg_run tl (List.replicate n reg_op.tick) = some (ticks n tl) := by
  induction n generalizing tl with
  | zero => rfl
  | succ m ih =>
    have h1 : reg_step tl reg_op.tick = some (sig_func tl) := rfl
    have h2 := reg_run_cons_of_some tl reg_op.tick (List.replicate m reg_op.tick)
      (sig_func tl) (ticks m (sig_func tl).1) h1 (ih (sig_func tl).1)
    exact h2

theorem elapse_of_tracked (tl : timer_list) (e0 : timer) (t : Int) (h : tracked tl e0 t) :
    elapse_of tl e0.id = some (t % e0.interval) := by
  unfold elapse_of
  rw [h.2]
  rfl

theorem ticks_tracked (n : Nat) (tl : timer_list) (e0 : timer)
    (hk : 0 < e0.interval) (hk2 : e0.interval ≤ INT_MAX) (h : tracked tl e0 0) :
    (fired e0.id (ticks n tl).2 : Int) = (n : Int) / e0.interval ∧
    elapse_of (ticks n tl).1 e0.id = some ((n : Int) % e0.interval) := by
  obtain ⟨h1, h2, _⟩ := reg_run_tracked (List.replicate n reg_op.tick) tl e0 0 (ticks n tl)
    hk hk2 h (ticks_eq_reg_run n tl)
  rw [tick_count_replicate, zero_add] at h1 h2
  constructor
  · simpa using h2
  · exact elapse_of_tracked _ e0 _ h1

theorem adds_tracked (later : List add_args) (tl : timer_list) (e0 : timer)
    (r : timer_list × List cb_call)
    (hk : 0 < e0.interval) (hk2 : e0.interval ≤ INT_MAX) (h : tracked tl e0 0)
    (hr : reg_run tl (later.map reg_op.add) = some r) :
    tracked r.1 e0 0 := by
  have h1 := (reg_run_tracked (later.map reg_op.add) tl e0 0 r hk hk2 h hr).1
  rw [tick_count_adds] at h1
  simpa using h1

theorem ticks_append_length (m d : Nat) (tl : timer_list) :
    (ticks m tl).2.length ≤ (ticks (m + d) tl).2.length := by
  induction m generalizing tl with
  | zero => simp [ticks]
  | succ k ih =>
    have hk : k + 1 + d = (k + d) + 1 := by omega
    rw [hk]
    show ((sig_func tl).2 ++ (ticks k (sig_func tl).1).2).length ≤
      ((sig_func tl).2 ++ (ticks (k + d) (sig_func tl).1).2).length
    rw [List.length_append, List.length_append]
    have := ih (sig_func tl).1
    omega

/-! ## Lifecycle, id uniqueness and the elapse invariant -/

/-- C8, counterexample: two reachable states in which the claim fails.  In the
process where `init_timer(5)` has already succeeded once, a further
`init_timer(5)` followed immediately by `destroy_timer` returns 0 twice and
leaves `sig_func` installed with the one-second interval timer running: the
tick source is armed.  In the process that had its own SIGALRM handler, ran
`init_timer(5)` and shut down, a further successful `destroy_timer` installs
`SIG_DFL`, not the handler that was active before `init_timer`. -/
theorem init_then_destroy_counterexample :
    run (boot ⟨sighandler.SIG_DFL, itimerval_zero⟩) [op.init ⟨true, true⟩ 5] =
      some engine_started ∧
    (init_timer ⟨true, true⟩ engine_started 5).2 = 0 ∧
    (destroy_timer ⟨true, true⟩ (init_timer ⟨true, true⟩ engine_started 5).1).2 = 0 ∧
    tick_source_armed
      (destroy_timer ⟨true, true⟩ (init_timer ⟨true, true⟩ engine_started 5).1).1.os ∧
    run app_with_handler [op.init ⟨true, true⟩ 5, op.destroy ⟨true, true⟩] =
      some app_after_shutdown ∧
    app_with_handler.os.sigalrm = sighandler.user 4096 ∧
    (destroy_timer ⟨true, true⟩ app_after_shutdown).2 = 0 ∧
    (destroy_timer ⟨true, true⟩ app_after_shutdown).1.os.sigalrm = sighandler.SIG_DFL := by
  refine ⟨by decide, by decide, by decide, ⟨by decide, ?_⟩, by decide, by decide, by decide,
    by decide⟩
  unfold disarmed
  decide

/-- C8, amended: for every capacity in `1..MAX_TIMER_NUM`, with the platform
calls succeeding, `init_timer(capacity)` followed immediately by
`destroy_timer` returns 0 twice and leaves an empty list, `num = 0`, and the
SIGALRM handler and the interval-timer setting exactly as they were before
`init_timer`, so the tick source is disarmed whenever it was not armed before
`init_timer`.  After a successful `init_timer` and any sequence of `add_timer`
calls and ticks, a `destroy_timer` that returns 0 leaves an empty list,
`num = 0` and the SIGALRM handler that was installed before that `init_timer`;
and from any state whatever a `destroy_timer` that returns 0 leaves an empty
list, `num = 0` and the handler saved in `old_sigfunc` installed. -/
theorem init_then_destroy (p pd pd2 : platform) (s0 : state) (count : Int) (ops : List reg_op)
    (hlo : 1 ≤ count) (hhi : count ≤ MAX_TIMER_NUM)
    (hsig : p.signal_ok = true) (hset : p.setitimer_ok = true)
    (hdsig : pd.signal_ok = true) (hdset : pd.setitimer_ok = true)
    (hos : s0.os.sigalrm ≠ sighandler.SIG_ERR) :
    ((init_timer p s0 count).2 = 0 ∧
      tick_source_armed (init_timer p s0 count).1.os ∧
      (destroy_timer pd (init_timer p s0 count).1).2 = 0 ∧
      (destroy_timer pd (init_timer p s0 count).1).1.tl.header = [] ∧
      (destroy_timer pd (init_timer p s0 count).1).1.tl.num = 0 ∧
      (destroy_timer pd (init_timer p s0 count).1).1.os = s0.os ∧
      (¬ tick_source_armed s0.os →
        ¬ tick_source_armed (destroy_timer pd (init_timer p s0 count).1).1.os)) ∧
    (∀ s2 : state, run (init_timer p s0 count).1 (ops.map op.reg) = some s2 →
      (destroy_timer pd2 s2).2 = 0 →
      (destroy_timer pd2 s2).1.tl.header = [] ∧
      (destroy_timer pd2 s2).1.tl.num = 0 ∧
      (destroy_timer pd2 s2).1.os.sigalrm = s0.os.sigalrm) ∧
    (∀ s : state, (destroy_timer pd2 s).2 = 0 →
      (destroy_timer pd2 s).1.tl.header = [] ∧ (destroy_timer pd2 s).1.tl.num = 0 ∧
      (destroy_timer pd2 s).1.os.sigalrm = s.tl.old_sigfunc) := by
  have hinit := init_timer_ok p s0 count hlo hhi hsig hset hos
  have hne : sighandler.sig_func ≠ sighandler.SIG_ERR := by decide
  refine ⟨?_, ?_, fun s hz => ?_⟩
  rotate_left 2
  · rw [(destroy_timer_zero pd2 s hz).2]
    exact ⟨rfl, rfl, rfl⟩
  · rw [hinit]
    have hd := destroy_timer_ok pd
      ⟨⟨[], 0, count, s0.os.sigalrm, sighandler.sig_func, s0.os.itimer,
          ⟨TIMER_TICK, 0, TIMER_START, 0⟩⟩,
        ⟨sighandler.sig_func, ⟨TIMER_TICK, 0, TIMER_START, 0⟩⟩⟩ hdsig hdset hos hne
    rw [hd]
    refine ⟨rfl, ⟨rfl, ?_⟩, rfl, rfl, rfl, rfl, fun hfresh => hfresh⟩
    unfold disarmed TIMER_START
    simp
  · intro s2 hrun hz
    obtain ⟨_, hfin⟩ := destroy_timer_zero pd2 s2 hz
    rw [hfin]
    refine ⟨rfl, rfl, ?_⟩
    rw [run_reg] at hrun
    obtain ⟨r, hr, hs2⟩ := Option.map_eq_some'.mp hrun
    rw [← hs2]
    show r.1.old_sigfunc = s0.os.sigalrm
    rw [(reg_run_frame ops (init_timer p s0 count).1.tl r hr).2.1, hinit]

/-- Witness for C8 (amended): `init_timer(5)` then `destroy_timer` in a process
with the default SIGALRM disposition and no interval timer. -/
theorem init_then_destroy_witness :
    (destroy_timer ⟨true, true⟩
      (init_timer ⟨true, true⟩ (boot ⟨sighandler.SIG_DFL, itimerval_zero⟩) 5).1).2 = 0 ∧
    (destroy_timer ⟨true, true⟩
      (init_timer ⟨true, true⟩ (boot ⟨sighandler.SIG_DFL, itimerval_zero⟩) 5).1).1.os =
      ⟨sighandler.SIG_DFL, itimerval_zero⟩ ∧
    ¬ tick_source_armed (destroy_timer ⟨true, true⟩
      (init_timer ⟨true, true⟩ (boot ⟨sighandler.SIG_DFL, itimerval_zero⟩) 5).1).1.os :=
  let h := (init_then_destroy ⟨true, true⟩ ⟨true, true⟩ ⟨true, true⟩
    (boot ⟨sighandler.SIG_DFL, itimerval_zero⟩) 5 [] (by decide) (by decide) rfl rfl rfl rfl
    (by decide)).1
  ⟨h.2.2.1, h.2.2.2.2.2.1, h.2.2.2.2.2.2 (fun h => absurd h.1 (by decide))⟩

/-- Remark on C9: the uniqueness of ids rests on the absence of a removal
operation.  With `del_timer` as the specification describes it, the sequence
add, add, `del_timer(1)`, add leaves two entries with id 2. -/
theorem del_timer_reuses_id :
    ((add_call registry_init5 ⟨some blank, 2, some timer_cb, none, 0⟩).bind (fun r1 =>
      (add_call r1.1 ⟨some blank, 3, some timer_cb, none, 0⟩).bind (fun r2 =>
        add_call (del_timer r2.1 1).1 ⟨some blank, 5, some timer_cb, none, 0⟩))).map
      (fun r => ids r.1) = some [2, 2] := by
  decide

/-- C10: in every state reached from a successful `init_timer` by a sequence of
`add_timer` calls (with `int` arguments) and ticks, every entry of the list has
`interval > 0` and `0 ≤ elapse < interval`. -/
theorem elapse_in_range (p : platform) (s0 : state) (count : Int) (ops : List reg_op)
    (s2 : state)
    (hinit : (init_timer p s0 count).2 = 0)
    (hty : ∀ o ∈ ops, reg_op.typed o = true)
    (hrun : run (init_timer p s0 count).1 (ops.map op.reg) = some s2) :
    ∀ e ∈ s2.tl.header,
      0 < e.interval ∧ 0 ≤ e.elapse ∧ e.elapse < e.interval := by
  intro e he
  rw [run_reg] at hrun
  obtain ⟨r, hr, hs2⟩ := Option.map_eq_some'.mp hrun
  rw [← hs2] at he
  have h0 : ∀ x ∈ (init_timer p s0 count).1.tl.header, entry_ok x := by
    rw [(init_timer_zero p s0 count hinit).1]
    intro x hx
    exact absurd hx (List.not_mem_nil x)
  have h := reg_run_entry_ok ops (init_timer p s0 count).1.tl r hty h0 hr e he
  exact ⟨h.1, h.2.2.1, h.2.2.2⟩

/-- Witness for C10: after `init_timer(5)`, `add_timer(2, ...)` and three ticks
the single entry (id 1, interval 2, elapse 1) has `interval > 0` and
`0 ≤ elapse < interval`. -/
theorem elapse_in_range_witness :
    0 < (⟨1, 2, 1, timer_cb, some [97, 0], 2⟩ : timer).interval ∧
    0 ≤ (⟨1, 2, 1, timer_cb, some [97, 0], 2⟩ : timer).elapse ∧
    (⟨1, 2, 1, timer_cb, some [97, 0], 2⟩ : timer).elapse <
      (⟨1, 2, 1, timer_cb, some [97, 0], 2⟩ : timer).interval :=
  elapse_in_range ⟨true, true⟩ (boot ⟨sighandler.SIG_DFL, itimerval_zero⟩) 5
    [reg_op.add ⟨some blank, 2, some timer_cb, some [97, 0], 2⟩, reg_op.tick, reg_op.tick,
      reg_op.tick]
    ⟨⟨[⟨1, 2, 1, timer_cb, some [97, 0], 2⟩], 1, 5, sighandler.SIG_DFL, sighandler.sig_func,
        itimerval_zero, ⟨1, 0, 1, 0⟩⟩, ⟨sighandler.sig_func, ⟨1, 0, 1, 0⟩⟩⟩
    (by decide) (by decide) (by decide) ⟨1, 2, 1, timer_cb, some [97, 0], 2⟩ (by decide)

/-! ## Firing schedule -/

/-- C2: timers fire independently.  For a timer added by a successful
`add_timer` with interval `k` in any reachable state (whatever timers are
already registered), followed by any further `add_timer` calls before the first
tick: after `n` calls of `sig_func` it has been fired exactly `n / k` times and
its `elapse` is `n mod k`.  In particular two timers with intervals `a` and `b`
added one after the other fire `lcm(a,b)/a` and `lcm(a,b)/b` times over
`lcm(a,b)` ticks; with intervals 2, 3, 5 the three timers have fired 15, 10 and
6 times after 30 ticks; and in the unit test (intervals 2, 3, 5, 7, 9) the
number of callbacks is below 45 during the first 35 ticks and is 46 after tick
36, so the wait loop `alarmCnt < 45` ends. -/
theorem timers_fire_independently (os : os_state) (pre : List op) (a : add_args)
    (later : List add_args) (n : Nat) (s : state) (tl1 tl2 : timer_list) (id : Int)
    (calls : List cb_call)
    (hreach : run (boot os) pre = some s)
    (hadd : add_call s.tl a = some (tl1, id)) (hid : id ≠ INVALID_TIMER_ID)
    (hk : a.interval ≤ INT_MAX)
    (hlater : reg_run tl1 (later.map reg_op.add) = some (tl2, calls)) :
    ((fired id (ticks n tl2).2 : Int) = (n : Int) / a.interval ∧
      elapse_of (ticks n tl2).1 id = some ((n : Int) % a.interval)) ∧
    (∀ (b : add_args) (tl3 : timer_list) (id2 : Int),
      add_call tl1 b = some (tl3, id2) → id2 ≠ INVALID_TIMER_ID → b.interval ≤ INT_MAX →
      (fired id (ticks (Int.lcm a.interval b.interval) tl3).2 : Int) =
        (Int.lcm a.interval b.interval : Int) / a.interval ∧
      (fired id2 (ticks (Int.lcm a.interval b.interval) tl3).2 : Int) =
        (Int.lcm a.interval b.interval : Int) / b.interval) ∧
    (fired 1 (ticks 30 scenario_registry).2 = 15 ∧
      fired 2 (ticks 30 scenario_registry).2 = 10 ∧
      fired 3 (ticks 30 scenario_registry).2 = 6 ∧
      ((ticks 30 scenario_registry).2.filter (fun c => decide (c.cb = 11))).length = 15 ∧
      ((ticks 30 scenario_registry).2.filter (fun c => decide (c.cb = 12))).length = 10 ∧
      ((ticks 30 scenario_registry).2.filter (fun c => decide (c.cb = 13))).length = 6) ∧
    ((∀ m, m < 36 → alarmCnt m < 45) ∧ alarmCnt 36 = 46) := by
  have hinv : ids_ok s.tl := run_ids_ok pre (boot os) s (boot_ids_ok os) hreach
  obtain ⟨e0, he1, he2, _, hpos, htr⟩ :=
    add_call_starts_tracking s.tl a (tl1, id) hinv hadd hid
  have hinv1 : ids_ok tl1 := htr.1
  have he1 : e0.id = id := he1
  have htr : tracked tl1 e0 0 := htr
  have hk2 : e0.interval ≤ INT_MAX := by
    rw [he2]
    exact hk
  have hpos2 : 0 < e0.interval := by
    rw [he2]
    exact hpos
  refine ⟨?_, ?_, ?_, ?_, ?_⟩
  · have h2 : tracked tl2 e0 0 := adds_tracked later tl1 e0 (tl2, calls) hpos2 hk2 htr hlater
    have h3 := ticks_tracked n tl2 e0 hpos2 hk2 h2
    rw [he1, he2] at h3
    exact h3
  · intro b tl3 id2 hb hid2 hkb
    obtain ⟨e1, hb1, hb2, _, hposb, htrb⟩ :=
      add_call_starts_tracking tl1 b (tl3, id2) hinv1 hb hid2
    have htra : tracked tl3 e0 0 := add_timer_tracked tl1 b e0 0 (tl3, id2) htr hb
    have hb1 : e1.id = id2 := hb1
    have htrb : tracked tl3 e1 0 := htrb
    have hA := (ticks_tracked (Int.lcm a.interval b.interval) tl3 e0 hpos2 hk2 htra).1
    have hB := (ticks_tracked (Int.lcm a.interval b.interval) tl3 e1 (by rw [hb2]; exact hposb)
      (by rw [hb2]; exact hkb) htrb).1
    rw [he1, he2] at hA
    rw [hb1, hb2] at hB
    exact ⟨hA, hB⟩
  · decide
  · intro m hm
    have h35 : alarmCnt 35 = 43 := by decide
    have hmono : alarmCnt m ≤ alarmCnt (m + (35 - m)) :=
      ticks_append_length m (35 - m) unit_test_registry
    have hsum : m + (35 - m) = 35 := by omega
    rw [hsum, h35] at hmono
    omega
  · decide

/-- Witness for C2: the timer with interval 3 of the unit test, registered
after the timer with interval 2 and before those with intervals 5, 7 and 9, has
fired 12 times after 36 ticks and its `elapse` is 0. -/
theorem timers_fire_independently_witness :
    (fired 2 (ticks 36 unit_test_registry).2 : Int) = (36 : Int) / 3 ∧
    elapse_of (ticks 36 unit_test_registry).1 2 = some ((36 : Int) % 3) :=
  (timers_fire_independently ⟨sighandler.SIG_DFL, itimerval_zero⟩
    [op.init ⟨true, true⟩ MAX_TIMER_NUM,
      op.reg (reg_op.add ⟨some blank, 2, some timer_cb, some [97, 0], 2⟩)]
    ⟨some blank, 3, some timer_cb, some [98, 0], 2⟩
    [⟨some blank, 5, some timer_cb, some [99, 0], 2⟩,
      ⟨some blank, 7, some timer_cb, some [100, 0], 2⟩,
      ⟨some blank, 9, some timer_cb, some [101, 0], 2⟩]
    36
    ⟨⟨[⟨1, 2, 0, timer_cb, some [97, 0], 2⟩], 1, 1000, sighandler.SIG_DFL, sighandler.sig_func,
        itimerval_zero, ⟨1, 0, 1, 0⟩⟩, ⟨sighandler.sig_func, ⟨1, 0, 1, 0⟩⟩⟩
    ⟨[⟨2, 3, 0, timer_cb, some [98, 0], 2⟩, ⟨1, 2, 0, timer_cb, some [97, 0], 2⟩], 2, 1000,
      sighandler.SIG_DFL, sighandler.sig_func, itimerval_zero, ⟨1, 0, 1, 0⟩⟩
    unit_test_registry 2 []
    (by decide) (by decide) (by decide) (by decide) (by decide)).1

/-! ## The counter `num` -/

theorem add_timer_num_ok (tl : timer_list) (node : Option timer) (interval : Int)
    (cb : Option Nat) (user_data : Option (List Nat)) (len : Int) (r : timer_list × Int)
    (h : num_ok tl) (hr : add_timer tl node interval cb user_data len = some r) :
    num_ok r.1 := by
  obtain ⟨h0, h1, h2⟩ := h
  rcases add_timer_some tl node interval cb user_data len r hr with
    ⟨_, rfl⟩ | ⟨_, hn, _, _, rfl⟩ | ⟨_, hn, _, _, _, _, rfl⟩
  · exact ⟨h0, h1, h2⟩
  · exact ⟨by show 0 ≤ tl.num + 1; omega, by show tl.num + 1 ≤ tl.max_num; omega, h2⟩
  · exact ⟨by show 0 ≤ tl.num + 1; omega, by show tl.num + 1 ≤ tl.max_num; omega, h2⟩

theorem num_ok_zero : num_ok timer_list_zero :=
  ⟨le_refl 0, le_refl 0, by decide⟩

theorem init_timer_num_ok (p : platform) (s : state) (count : Int) (h : num_ok s.tl) :
    num_ok (init_timer p s count).1.tl := by
  unfold init_timer
  by_cases hc : count ≤ 0 ∨ count > MAX_TIMER_NUM
  · rw [if_pos hc]
    exact h
  · rw [if_neg hc]
    have hlo : 0 ≤ count := by
      by_contra hlt
      exact hc (Or.inl (by omega))
    have hhi : count ≤ MAX_TIMER_NUM := by
      by_contra hgt
      exact hc (Or.inr (by omega))
    by_cases he : (signal p.signal_ok s.os sighandler.sig_func).2 = sighandler.SIG_ERR
    · simp only [he, if_true]
      exact ⟨le_refl 0, hlo, hhi⟩
    · simp only [he, if_false]
      exact ⟨le_refl 0, hlo, hhi⟩

theorem destroy_timer_num_ok (p : platform) (s : state) (h : num_ok s.tl) :
    num_ok (destroy_timer p s).1.tl := by
  unfold destroy_timer
  by_cases he : (signal p.signal_ok s.os s.tl.old_sigfunc).2 = sighandler.SIG_ERR
  · simp only [he, if_true]
    exact h
  · simp only [he, if_false]
    split
    · exact h
    · exact num_ok_zero

theorem run_num_ok (ops : List op) (s s2 : state) (h : num_ok s.tl)
    (hr : run s ops = some s2) : num_ok s2.tl :=
  run_preserves num_ok (fun _ => True)
    (fun t a x _ hp hx => add_timer_num_ok t a.node a.interval a.cb a.user_data a.len x hp hx)
    (fun _ hp => hp) init_timer_num_ok destroy_timer_num_ok ops s s2 (fun _ _ => trivial) h hr

/-- C11: in every state reached from program start by any sequence of
`init_timer`, `add_timer`, `sig_func` and `destroy_timer` calls (any arguments,
any outcome of `malloc`, `signal` and `setitimer`), `0 ≤ num ≤ max_num` holds,
and `max_num ≤ MAX_TIMER_NUM = 1000`. -/
theorem num_within_capacity (os : os_state) (ops : List op) (s : state)
    (hreach : run (boot os) ops = some s) :
    0 ≤ s.tl.num ∧ s.tl.num ≤ s.tl.max_num ∧
    s.tl.max_num ≤ MAX_TIMER_NUM ∧ MAX_TIMER_NUM = 1000 := by
  have h := run_num_ok ops (boot os) s num_ok_zero hreach
  exact ⟨h.1, h.2.1, h.2.2, rfl⟩

/-- Witness for C11: the state after `init_timer(5)` and one `add_timer`. -/
theorem num_within_capacity_witness :
    0 ≤ running_engine.tl.num ∧ running_engine.tl.num ≤ running_engine.tl.max_num ∧
    running_engine.tl.max_num ≤ MAX_TIMER_NUM ∧ MAX_TIMER_NUM = 1000 :=
  num_within_capacity ⟨sighandler.SIG_DFL, itimerval_zero⟩
    [op.init ⟨true, true⟩ 5,
      op.reg (reg_op.add ⟨some blank, 2, some timer_cb, some [97, 0], 2⟩)]
    running_engine (by decide)

theorem sig_func_loop_length (l : List timer) : (sig_func_loop l).1.length = l.length := by
  induction l with
  | nil => rfl
  | cons a rest ih =>
    show ((sig_func_node a).1 :: (sig_func_loop rest).1).length = (a :: rest).length
    rw [List.length_cons, List.length_cons, ih]

theorem init_timer_num_eq_length (p : platform) (s : state) (count : Int)
    (h : s.tl.num = s.tl.header.length) :
    (init_timer p s count).1.tl.num = (init_timer p s count).1.tl.header.length := by
  unfold init_timer
  by_cases hc : count ≤ 0 ∨ count > MAX_TIMER_NUM
  · rw [if_pos hc]
    exact h
  · rw [if_neg hc]
    by_cases he : (signal p.signal_ok s.os sighandler.sig_func).2 = sighandler.SIG_ERR
    · simp only [he, if_true]
      rfl
    · simp only [he, if_false]
      rfl

theorem destroy_timer_num_eq_length (p : platform) (s : state)
    (h : s.tl.num = s.tl.header.length) :
    (destroy_timer p s).1.tl.num = (destroy_timer p s).1.tl.header.length := by
  unfold destroy_timer
  by_cases he : (signal p.signal_ok s.os s.tl.old_sigfunc).2 = sighandler.SIG_ERR
  · simp only [he, if_true]
    exact h
  · simp only [he, if_false]
    split
    · exact h
    · rfl

/-- Remark on C12: as long as no node allocation fails, `num` is the number of
entries in the list in every state reached from program start. -/
theorem num_eq_length_without_malloc_failure (os : os_state) (ops : List op) (s : state)
    (ha : ∀ o ∈ ops, op.alloc_ok o = true)
    (hreach : run (boot os) ops = some s) :
    s.tl.num = s.tl.header.length := by
  refine run_preserves (fun t => t.num = t.header.length) (fun o => op.alloc_ok o = true)
    ?_ ?_ init_timer_num_eq_length destroy_timer_num_eq_length ops (boot os) s ha rfl hreach
  · intro t a x hq hp hx
    rcases add_timer_some t a.node a.interval a.cb a.user_data a.len x hx with
      ⟨_, rfl⟩ | ⟨_, _, _, hnode, _⟩ | ⟨_, _, blk, f, _, _, rfl⟩
    · exact hp
    · have hsome : a.node.isSome = true := hq
      rw [hnode] at hsome
      cases hsome
    · show t.num + 1 = ((new_node t blk a.interval f a.user_data a.len :: t.header).length : Int)
      rw [List.length_cons, hp]
      push_cast
      rfl
  · intro t hp
    show t.num = ((sig_func_loop t.header).1.length : Int)
    rw [sig_func_loop_length]
    exact hp

/-- C12, the code at the failing input: `init_timer(5)` followed by an
`add_timer(2, timer_cb, "a", 2)` whose node `malloc` returns NULL.  The call
returns `INVALID_TIMER_ID`, the list is empty, and `num` is 1; so `num` is not
the number of entries. -/
theorem num_after_failed_malloc :
    (add_call registry_init5 ⟨none, 2, some timer_cb, some [97, 0], 2⟩).map Prod.snd =
      some INVALID_TIMER_ID ∧
    (run (boot ⟨sighandler.SIG_DFL, itimerval_zero⟩)
      [op.init ⟨true, true⟩ 5,
        op.reg (reg_op.add ⟨none, 2, some timer_cb, some [97, 0], 2⟩)]).map
      (fun s => s.tl.num) = some 1 ∧
    (run (boot ⟨sighandler.SIG_DFL, itimerval_zero⟩)
      [op.init ⟨true, true⟩ 5,
        op.reg (reg_op.add ⟨none, 2, some timer_cb, some [97, 0], 2⟩)]).map
      (fun s => s.tl.header.length) = some 0 := by
  decide

/-- C13, the code at the failing input: `add_timer(1, timer_cb, NULL, 0)` on the
registry after `init_timer(5)`, the node being allocated in a block whose `len`
field holds 7.  The add returns id 1, and on the next tick the callback is
invoked with id 1, a NULL payload and the length argument 7, not the 0 that was
passed to `add_timer`: the `else` branch never assigns `node->len`. -/
theorem empty_payload_len_indeterminate :
    (add_call registry_init5 ⟨some stale_block, 1, some timer_cb, none, 0⟩).map Prod.snd =
      some 1 ∧
    (add_call registry_init5 ⟨some stale_block, 1, some timer_cb, none, 0⟩).map
      (fun r => (sig_func r.1).2) = some [⟨timer_cb, 1, none, 7⟩] := by
  decide

/-! ## Platform failures in `init_timer` -/

/-- C14, counterexample: `init_timer(5)` called on a registry that holds one
timer.  When `signal` fails the call returns -1 but the registry has lost its
entry (`num` went from 1 to 0); when `signal` succeeds and `setitimer` fails it
returns -1, the registry is reset as well, and `sig_func` is left installed in
a process that started with `SIG_DFL`. -/
theorem init_timer_failure_counterexample :
    running_engine.tl.num = 1 ∧ running_engine.tl.header.length = 1 ∧
    (init_timer ⟨false, true⟩ running_engine 5).2 = -1 ∧
    (init_timer ⟨false, true⟩ running_engine 5).1.tl.num = 0 ∧
    (init_timer ⟨false, true⟩ running_engine 5).1.tl.header = [] ∧
    (init_timer ⟨false, true⟩ running_engine 5).1.tl ≠ running_engine.tl ∧
    (init_timer ⟨true, false⟩ (boot ⟨sighandler.SIG_DFL, itimerval_zero⟩) 5).2 = -1 ∧
    (init_timer ⟨true, false⟩ (boot ⟨sighandler.SIG_DFL, itimerval_zero⟩) 5).1.os.sigalrm =
      sighandler.sig_func ∧
    (init_timer ⟨true, false⟩ (boot ⟨sighandler.SIG_DFL, itimerval_zero⟩) 5).1.tl ≠
      (boot ⟨sighandler.SIG_DFL, itimerval_zero⟩).tl := by
  decide

/-- C14, amended: for `count` in `1..MAX_TIMER_NUM`, if `signal` fails, or
`signal` succeeds and `setitimer` fails, `init_timer` returns -1.  The registry
is then not in its pre-call state but reset: empty list, `num = 0`,
`max_num = count`.  When `signal` fails the SIGALRM handler and the interval
timer are as before the call and `old_sigfunc` holds `SIG_ERR`; when
`setitimer` fails `sig_func` stays installed, `old_sigfunc` holds the previous
handler and the interval timer is as before the call. -/
theorem init_timer_platform_failure (p : platform) (s : state) (count : Int)
    (hlo : 1 ≤ count) (hhi : count ≤ MAX_TIMER_NUM) :
    (p.signal_ok = false →
      (init_timer p s count).2 = -1 ∧
      (init_timer p s count).1.os = s.os ∧
      (init_timer p s count).1.tl =
        ⟨[], 0, count, sighandler.SIG_ERR, sighandler.SIG_DFL, itimerval_zero,
          itimerval_zero⟩) ∧
    (p.signal_ok = true → s.os.sigalrm ≠ sighandler.SIG_ERR → p.setitimer_ok = false →
      (init_timer p s count).2 = -1 ∧
      (init_timer p s count).1.os = ⟨sighandler.sig_func, s.os.itimer⟩ ∧
      (init_timer p s count).1.tl =
        ⟨[], 0, count, s.os.sigalrm, sighandler.sig_func, itimerval_zero,
          ⟨TIMER_TICK, 0, TIMER_START, 0⟩⟩) := by
  have hc : ¬ (count ≤ 0 ∨ count > MAX_TIMER_NUM) := by
    intro h
    rcases h with h | h <;> omega
  constructor
  · intro hsig
    unfold init_timer
    simp [hc, signal, hsig, timer_list_zero, memset_zero]
  · intro hsig hos hset
    unfold init_timer
    simp [hc, signal, setitimer, hsig, hset, hos, timer_list_zero, memset_zero]

/-- Witness for C14 (amended): `init_timer(5)` on the registry holding one
timer, with `signal` failing, and with `setitimer` failing. -/
theorem init_timer_platform_failure_witness :
    ((init_timer ⟨false, true⟩ running_engine 5).2 = -1 ∧
      (init_timer ⟨false, true⟩ running_engine 5).1.os = running_engine.os ∧
      (init_timer ⟨false, true⟩ running_engine 5).1.tl =
        ⟨[], 0, 5, sighandler.SIG_ERR, sighandler.SIG_DFL, itimerval_zero, itimerval_zero⟩) ∧
    (init_timer ⟨true, false⟩ running_engine 5).2 = -1 :=
  ⟨(init_timer_platform_failure ⟨false, true⟩ running_engine 5 (by decide) (by decide)).1 rfl,
    ((init_timer_platform_failure ⟨true, false⟩ running_engine 5 (by decide) (by decide)).2 rfl
      (by decide) rfl).1⟩

/-! ## Order of the invocations within one tick -/

theorem sig_func_node_calls_eq (e : timer) :
    (sig_func_node e).2 = if expires e = true then [call_of e] else [] := by
  rw [sig_func_node_eq]
  unfold expires
  by_cases h : e.interval ≤ wrap_int (e.elapse + 1)
  · simp [h, call_of]
  · simp [h]

theorem sig_func_loop_calls (l : List timer) :
    (sig_func_loop l).2 = (l.filter expires).map call_of := by
  induction l with
  | nil => rfl
  | cons a rest ih =>
    show (sig_func_node a).2 ++ (sig_func_loop rest).2 = _
    rw [ih, sig_func_node_calls_eq]
    by_cases h : expires a = true
    · simp [h]
    · simp [h]

theorem sig_func_call_ids_sublist (tl : timer_list) :
    ((sig_func tl).2.map cb_call.id).Sublist (ids tl) := by
  show ((sig_func_loop tl.header).2.map cb_call.id).Sublist (tl.header.map timer.id)
  rw [sig_func_loop_calls, List.map_map]
  have h : (cb_call.id ∘ call_of) = timer.id := by
    funext e
    rfl
  rw [h]
  exact List.Sublist.map timer.id (List.filter_sublist tl.header)

theorem add_timer_ids_desc (tl : timer_list) (node : Option timer) (interval : Int)
    (cb : Option Nat) (user_data : Option (List Nat)) (len : Int) (r : timer_list × Int)
    (h : ids_desc tl) (hr : add_timer tl node interval cb user_data len = some r) :
    ids_desc r.1 := by
  obtain ⟨hpw, hle⟩ := h
  rcases add_timer_some tl node interval cb user_data len r hr with
    ⟨_, rfl⟩ | ⟨_, _, _, _, rfl⟩ | ⟨_, _, blk, f, _, _, rfl⟩
  · exact ⟨hpw, hle⟩
  · refine ⟨hpw, fun i hi2 => ?_⟩
    have := hle i hi2
    show i ≤ tl.num + 1
    omega
  · constructor
    · show ((tl.num + 1) :: ids tl).Pairwise (fun x y => x > y)
      refine List.pairwise_cons.mpr ⟨fun i hm => ?_, hpw⟩
      have := hle i hm
      show tl.num + 1 > i
      omega
    · intro i hi2
      have hi3 : i ∈ (tl.num + 1) :: ids tl := hi2
      show i ≤ tl.num + 1
      rcases List.mem_cons.mp hi3 with h | h
      · omega
      · have := hle i h
        omega

theorem ids_desc_of_nil (tl : timer_list) (h : tl.header = []) : ids_desc tl := by
  unfold ids_desc ids
  rw [h]
  exact ⟨List.Pairwise.nil, fun i hi => absurd hi (List.not_mem_nil i)⟩

theorem init_timer_ids_desc (p : platform) (s : state) (count : Int) (h : ids_desc s.tl) :
    ids_desc (init_timer p s count).1.tl := by
  unfold init_timer
  by_cases hc : count ≤ 0 ∨ count > MAX_TIMER_NUM
  · rw [if_pos hc]
    exact h
  · rw [if_neg hc]
    apply ids_desc_of_nil
    by_cases he : (signal p.signal_ok s.os sighandler.sig_func).2 = sighandler.SIG_ERR
    · simp only [he, if_true]
      rfl
    · simp only [he, if_false]
      rfl

theorem destroy_timer_ids_desc (p : platform) (s : state) (h : ids_desc s.tl) :
    ids_desc (destroy_timer p s).1.tl := by
  unfold destroy_timer
  by_cases he : (signal p.signal_ok s.os s.tl.old_sigfunc).2 = sighandler.SIG_ERR
  · simp only [he, if_true]
    exact h
  · simp only [he, if_false]
    split
    · exact h
    · exact ids_desc_of_nil _ rfl

theorem sig_func_ids_desc (tl : timer_list) (h : ids_desc tl) : ids_desc (sig_func tl).1 := by
  unfold ids_desc
  rw [sig_func_ids]
  exact h

theorem run_ids_desc (ops : List op) (s s2 : state) (h : ids_desc s.tl)
    (hr : run s ops = some s2) : ids_desc s2.tl :=
  run_preserves ids_desc (fun _ => True)
    (fun t a x _ hp hx => add_timer_ids_desc t a.node a.interval a.cb a.user_data a.len x hp hx)
    sig_func_ids_desc init_timer_ids_desc destroy_timer_ids_desc ops s s2
    (fun _ _ => trivial) h hr

theorem add_call_ids (tl : timer_list) (a : add_args) (r : timer_list × Int)
    (hr : add_call tl a = some r) (hok : r.2 ≠ INVALID_TIMER_ID) :
    ids r.1 = r.2 :: ids tl ∧ r.2 = tl.num + 1 := by
  rcases add_timer_some tl a.node a.interval a.cb a.user_data a.len r hr with
    ⟨_, rfl⟩ | ⟨_, _, _, _, rfl⟩ | ⟨_, _, blk, f, _, _, rfl⟩
  · exact absurd rfl hok
  · exact absurd rfl hok
  · exact ⟨rfl, rfl⟩

/-- C16: one call of `sig_func` invokes the callbacks of exactly the expiring
entries, in list order from the head, in every registry state; `add_timer`
links each new entry in at the head with an id larger than every id in the
list, so in every reachable state the list, and with it the sequence of
invocations of one tick, runs from the most recently added timer to the
earliest added one (strictly decreasing ids).  Timers added with ids 1, 2, 3
that all expire on the same tick fire in the order 3, 2, 1. -/
theorem tick_order (tl : timer_list) (os : os_state) (ops : List op) (a : add_args) :
    (sig_func tl).2 = (tl.header.filter expires).map call_of ∧
    (∀ s, run (boot os) ops = some s →
      (ids s.tl).Pairwise (fun x y => x > y) ∧
      ((sig_func s.tl).2.map cb_call.id).Pairwise (fun x y => x > y) ∧
      (∀ r, add_call s.tl a = some r → r.2 ≠ INVALID_TIMER_ID →
        ids r.1 = r.2 :: ids s.tl ∧ ∀ i ∈ ids s.tl, i < r.2)) ∧
    ids three_due_registry = [3, 2, 1] ∧
    (sig_func three_due_registry).2.map cb_call.id = [3, 2, 1] ∧
    (sig_func three_due_registry).2.map cb_call.cb = [13, 12, 11] := by
  refine ⟨sig_func_loop_calls tl.header, fun s hreach => ?_, ?_, ?_, ?_⟩
  · have hd := run_ids_desc ops (boot os) s (ids_desc_of_nil timer_list_zero rfl) hreach
    refine ⟨hd.1, List.Pairwise.sublist (sig_func_call_ids_sublist _) hd.1, ?_⟩
    intro r hr hok
    obtain ⟨h1, h2⟩ := add_call_ids s.tl a r hr hok
    refine ⟨h1, fun i hi => ?_⟩
    have := hd.2 i hi
    rw [h2]
    omega
  · decide
  · decide
  · decide

/-- Witness for C16: in the state after `init_timer(5)` and one `add_timer`, a
second `add_timer` puts its id 2 in front of the list of ids. -/
theorem tick_order_witness :
    ids (⟨[⟨2, 1, 0, 11, some [97, 0], 2⟩, ⟨1, 2, 0, timer_cb, some [97, 0], 2⟩], 2, 5,
        sighandler.SIG_DFL, sighandler.sig_func, itimerval_zero, ⟨1, 0, 1, 0⟩⟩ : timer_list) =
      2 :: ids running_engine.tl :=
  (((tick_order timer_list_zero ⟨sighandler.SIG_DFL, itimerval_zero⟩
    [op.init ⟨true, true⟩ 5,
      op.reg (reg_op.add ⟨some blank, 2, some timer_cb, some [97, 0], 2⟩)]
    ⟨some blank, 1, some 11, some [97, 0], 2⟩).2.1 running_engine (by decide)).2.2
    (⟨[⟨2, 1, 0, 11, some [97, 0], 2⟩, ⟨1, 2, 0, timer_cb, some [97, 0], 2⟩], 2, 5,
        sighandler.SIG_DFL, sighandler.sig_func, itimerval_zero, ⟨1, 0, 1, 0⟩⟩, 2)
    (by decide) (by decide)).1

/-! ## Callback return values and the frame of `sig_func` -/

theorem sig_func_node_ret_eq (ret : cb_call → Int) (e : timer) :
    sig_func_node_ret ret e =
      ((sig_func_node e).1, (sig_func_node e).2.map (fun c => (c, ret c))) := by
  unfold sig_func_node_ret sig_func_node
  dsimp only
  split <;> rfl

theorem sig_func_loop_ret_eq (ret : cb_call → Int) (l : List timer) :
    sig_func_loop_ret ret l =
      ((sig_func_loop l).1, (sig_func_loop l).2.map (fun c => (c, ret c))) := by
  induction l with
  | nil => rfl
  | cons a rest ih =>
    show ((sig_func_node_ret ret a).1 :: (sig_func_loop_ret ret rest).1,
      (sig_func_node_ret ret a).2 ++ (sig_func_loop_ret ret rest).2) = _
    rw [ih, sig_func_node_ret_eq]
    show _ = ((sig_func_node a).1 :: (sig_func_loop rest).1,
      ((sig_func_node a).2 ++ (sig_func_loop rest).2).map (fun c => (c, ret c)))
    rw [List.map_append]

theorem sig_func_ret_eq (ret : cb_call → Int) (tl : timer_list) :
    sig_func_ret ret tl = ((sig_func tl).1, (sig_func tl).2.map (fun c => (c, ret c))) := by
  unfold sig_func_ret sig_func
  dsimp only
  rw [sig_func_loop_ret_eq]

theorem map_fst_pair (ret : cb_call → Int) (l : List cb_call) :
    (l.map (fun c => (c, ret c))).map Prod.fst = l := by
  induction l with
  | nil => rfl
  | cons a rest ih =>
    show a :: (rest.map (fun c => (c, ret c))).map Prod.fst = a :: rest
    rw [ih]

theorem map_snd_pair (ret : cb_call → Int) (l : List cb_call) :
    (l.map (fun c => (c, ret c))).map Prod.snd = l.map ret := by
  induction l with
  | nil => rfl
  | cons a rest ih =>
    show ret a :: (rest.map (fun c => (c, ret c))).map Prod.snd = ret a :: rest.map ret
    rw [ih]

/-- C17: the dispatcher ignores what a callback returns.  For every registry
state and any two assignments `ret1`, `ret2` of return values to the callback
invocations, one call of `sig_func` makes the same sequence of invocations
(callback, id, payload, length) and ends in the same registry state, namely
those of `sig_func` itself, while the callbacks do return the assigned values;
with every callback returning the failure status -1 the tick still invokes
every expiring entry and keeps every entry in the list. -/
theorem return_value_ignored (ret1 ret2 : cb_call → Int) (tl : timer_list) :
    (sig_func_ret ret1 tl).1 = (sig_func_ret ret2 tl).1 ∧
    (sig_func_ret ret1 tl).2.map Prod.fst = (sig_func_ret ret2 tl).2.map Prod.fst ∧
    (sig_func_ret ret1 tl).1 = (sig_func tl).1 ∧
    (sig_func_ret ret1 tl).2.map Prod.fst = (sig_func tl).2 ∧
    (sig_func_ret ret1 tl).2.map Prod.snd = (sig_func tl).2.map ret1 ∧
    (sig_func_ret (fun _ => -1) tl).2.map Prod.fst = (tl.header.filter expires).map call_of ∧
    (sig_func_ret (fun _ => -1) tl).1.header.length = tl.header.length := by
  rw [sig_func_ret_eq ret1, sig_func_ret_eq ret2, sig_func_ret_eq (fun _ => -1)]
  refine ⟨rfl, ?_, rfl, ?_, ?_, ?_, ?_⟩
  · show ((sig_func tl).2.map (fun c => (c, ret1 c))).map Prod.fst =
      ((sig_func tl).2.map (fun c => (c, ret2 c))).map Prod.fst
    rw [map_fst_pair, map_fst_pair]
  · exact map_fst_pair ret1 _
  · exact map_snd_pair ret1 _
  · show ((sig_func tl).2.map (fun c => (c, (fun _ => (-1 : Int)) c))).map Prod.fst = _
    rw [map_fst_pair]
    exact sig_func_loop_calls tl.header
  · exact sig_func_loop_length tl.header

theorem sig_func_node_ticked (e : timer) :
    ticked (fun x => wrap_int (x + 1)) e (sig_func_node e).1 := by
  rw [sig_func_node_eq]
  split
  · exact ⟨rfl, rfl, rfl, rfl, rfl, Or.inr rfl⟩
  · exact ⟨rfl, rfl, rfl, rfl, rfl, Or.inl rfl⟩

theorem sig_func_loop_ticked (l : List timer) :
    List.Forall₂ (ticked (fun x => wrap_int (x + 1))) l (sig_func_loop l).1 := by
  induction l with
  | nil => exact List.Forall₂.nil
  | cons a rest ih => exact List.Forall₂.cons (sig_func_node_ticked a) ih

theorem sig_func_loop_ticked_exact (l : List timer)
    (h : ∀ e ∈ l, INT_MIN ≤ e.elapse ∧ e.elapse < INT_MAX) :
    List.Forall₂ (ticked (fun x => x + 1)) l (sig_func_loop l).1 := by
  induction l with
  | nil => exact List.Forall₂.nil
  | cons a rest ih =>
    refine List.Forall₂.cons ?_ (ih (fun e he => h e (List.mem_cons_of_mem a he)))
    obtain ⟨h0, h1⟩ := h a (List.mem_cons_self a rest)
    have hw : wrap_int (a.elapse + 1) = a.elapse + 1 := by
      apply wrap_int_of_range
      · unfold INT_MIN at h0 ⊢
        omega
      · unfold INT_MAX at h1 ⊢
        omega
    obtain ⟨t1, t2, t3, t4, t5, t6⟩ := sig_func_node_ticked a
    refine ⟨t1, t2, t3, t4, t5, ?_⟩
    rcases t6 with t | t
    · left
      rw [t]
      exact hw
    · exact Or.inr t

/-- C18: `sig_func` changes nothing but the `elapse` counters.  In every
registry state one call of `sig_func` keeps `num`, `max_num` and the other
fields of the registry, and the new list has the same entries in the same order
with the same id, interval, callback, payload and length, each `elapse` being 0
or the 32-bit increment of its old value; when every old `elapse` is an `int`
below `INT_MAX` (so that `elapse++` does not overflow, as in every state that
meets `0 ≤ elapse < interval`) each `elapse` is its old value plus 1, or 0. -/
theorem sig_func_only_elapse (tl : timer_list) :
    (sig_func tl).1.num = tl.num ∧ (sig_func tl).1.max_num = tl.max_num ∧
    (sig_func tl).1.old_sigfunc = tl.old_sigfunc ∧
    (sig_func tl).1.new_sigfunc = tl.new_sigfunc ∧
    (sig_func tl).1.ovalue = tl.ovalue ∧ (sig_func tl).1.value = tl.value ∧
    (sig_func tl).1.header.length = tl.header.length ∧
    List.Forall₂ (ticked (fun x => wrap_int (x + 1))) tl.header (sig_func tl).1.header ∧
    ((∀ e ∈ tl.header, INT_MIN ≤ e.elapse ∧ e.elapse < INT_MAX) →
      List.Forall₂ (ticked (fun x => x + 1)) tl.header (sig_func tl).1.header) :=
  ⟨rfl, rfl, rfl, rfl, rfl, rfl, sig_func_loop_length tl.header,
    sig_func_loop_ticked tl.header, sig_func_loop_ticked_exact tl.header⟩

/-- Witness for C18: one tick of the registry of the scenario (intervals 2, 3,
5, all `elapse` counters 0). -/
theorem sig_func_only_elapse_witness :
    List.Forall₂ (ticked (fun x => x + 1)) scenario_registry.header
      (sig_func scenario_registry).1.header :=
  (sig_func_only_elapse scenario_registry).2.2.2.2.2.2.2.2 (by decide)

/-! ## Arguments of the callback and failure of the node allocation -/

/-- Remark on C13: for a timer added by a successful `add_timer` in a reachable
state, every invocation made for its id during any later sequence of
`add_timer` calls and ticks carries the callback and the id of the add; when
`user_data` is not NULL or `len` is not 0 it carries the copy made by `memcpy`
and the length `len`; in the remaining case (NULL, 0) it carries a NULL
payload and, as length, what the allocated block held. -/
theorem callback_arguments (os : os_state) (pre : List op) (a : add_args) (ops : List reg_op)
    (s : state) (tl1 tl2 : timer_list) (id : Int) (calls : List cb_call)
    (hreach : run (boot os) pre = some s)
    (hadd : add_call s.tl a = some (tl1, id)) (hid : id ≠ INVALID_TIMER_ID)
    (hk : a.interval ≤ INT_MAX)
    (hrun : reg_run tl1 ops = some (tl2, calls)) :
    ∀ c ∈ calls_of id calls,
      a.cb = some c.cb ∧ c.id = id ∧
      ((a.user_data ≠ none ∨ a.len ≠ 0) →
        c.user_data = memcpy a.user_data a.len ∧ c.len = a.len) ∧
      (¬ (a.user_data ≠ none ∨ a.len ≠ 0) →
        c.user_data = none ∧ a.node.map timer.len = some c.len) := by
  have hinv : ids_ok s.tl := run_ids_ok pre (boot os) s (boot_ids_ok os) hreach
  obtain ⟨blk, f, hnode, hf, hpos, he1, htr⟩ := add_call_entry s.tl a (tl1, id) hinv hadd hid
  have he1 : (new_node s.tl blk a.interval f a.user_data a.len).id = id := he1
  have htr : tracked tl1 (new_node s.tl blk a.interval f a.user_data a.len) 0 := htr
  obtain ⟨_, _, h3⟩ := reg_run_tracked ops tl1 _ 0 (tl2, calls) hpos hk htr hrun
  rw [he1] at h3
  intro c hc
  rw [h3 c hc]
  refine ⟨hf, he1, ?_, ?_⟩
  · intro hu
    simp [call_of, new_node, hu]
  · intro hu
    rw [hnode]
    simp [call_of, new_node, hu]

/-- C19, the code at the failing input: `add_timer(7, timer_cb, "d", 2)` on the
registry of the scenario (capacity 5, three timers) with the node `malloc`
returning NULL.  The call returns `INVALID_TIMER_ID` and the list is unchanged,
but `num` has gone from 3 to 4, so the registry is not the one before the
call. -/
theorem failed_malloc_changes_num :
    scenario_registry.num = 3 ∧
    (add_call scenario_registry ⟨none, 7, some timer_cb, some [100, 0], 2⟩).map Prod.snd =
      some INVALID_TIMER_ID ∧
    (add_call scenario_registry ⟨none, 7, some timer_cb, some [100, 0], 2⟩).map
      (fun r => r.1.num) = some 4 ∧
    (add_call scenario_registry ⟨none, 7, some timer_cb, some [100, 0], 2⟩).map
      (fun r => r.1.header) = some scenario_registry.header ∧
    (add_call scenario_registry ⟨none, 7, some timer_cb, some [100, 0], 2⟩).map Prod.fst ≠
      some scenario_registry := by
  decide

end Scheduler
